import Mathlib

/-!
# A shallow embedding of the Monkey bytecode virtual machine core

This file embeds the VM core of `src/src/vm/vm.go` (package `vm`) in Lean:
the value model, the value stack, the call-frame stack, the globals table,
and the dispatch loop, together with theorems about the claims of the
specification.

Go runtime panics (out-of-range slice indexing, nil dereference, integer
division by zero) are modelled by the explicit outcome `Res.crash`, kept
distinct from errors returned by `Run()` (`Res.err`).  Machine integers are
`Int` with explicit wrapping at 64 bits where the Go code uses `int64`.
-/

namespace MonkeyVM

/-- object.CompiledFunction: bytecode instructions plus locals/parameter
counts.  Instructions are a byte list (each entry taken mod 256 on read). -/
structure CompiledFunction where
  instructions : List Nat
  numLocals : Nat
  numParameters : Nat

/-- Modelled from the spec: object.HashKey (the `object` package is not under
`src/`).  A canonical tag derived from a hashable value's type and content:
integers by value, booleans by 0/1, strings by a stable hash of their bytes
(modelled injectively by the string itself). -/
inductive HashKey where
  | intKey (v : Int)
  | boolKey (b : Bool)
  | strKey (s : String)
deriving DecidableEq

/-- Modelled from the spec: the runtime value universe of the `object`
package (not under `src/`), as used by `vm.go`.  `TRUE`, `FALSE` and `NULL`
are unique singletons, so identity comparison in the source coincides with
the constructor-level comparison here.  Array elements and hash-map values
are `Option Obj`, where `none` stands for a Go `nil` interface value; a
closure carries only its compiled function (free variables are never
populated by the present bytecode set); a built-in carries its index into
the embedder-supplied built-ins table. -/
inductive Obj where
  | intObj (v : Int)
  | boolObj (b : Bool)
  | nullObj
  | strObj (s : String)
  | arrayObj (elements : List (Option Obj))
  | hashObj (pairs : List (HashKey × Obj × Option Obj))
  | compiledFnObj (fn : CompiledFunction)
  | closureObj (fn : CompiledFunction)
  | builtinObj (idx : Nat)

/-- Modelled from the spec: the `object` package's type tag strings, used
only inside error messages. -/
def Obj.typeName : Obj → String
  | .intObj _ => "INTEGER"
  | .boolObj _ => "BOOLEAN"
  | .nullObj => "NULL"
  | .strObj _ => "STRING"
  | .arrayObj _ => "ARRAY"
  | .hashObj _ => "HASHMAP"
  | .compiledFnObj _ => "COMPILED_FUNCTION"
  | .closureObj _ => "CLOSURE"
  | .builtinObj _ => "BUILTIN"

/-- Whether a value is an Integer (used for the comparison dispatch). -/
def Obj.isInt : Obj → Bool
  | .intObj _ => true
  | _ => false

/-- Whether a value is a Boolean. -/
def Obj.isBool : Obj → Bool
  | .boolObj _ => true
  | _ => false

/-- Modelled from the spec: `object.Hashable` — only Integer, Boolean and
String values are hashable; other values yield no hash key. -/
def hashKeyOf : Obj → Option HashKey
  | .intObj v => some (.intKey v)
  | .boolObj b => some (.boolKey b)
  | .strObj s => some (.strKey s)
  | _ => none

/-- Outcome of a VM operation: a result, an error returned by `Run()`, or a
Go runtime panic (index out of range, nil dereference, division by zero). -/
inductive Res (α : Type) where
  | ok (a : α)
  | err (msg : String)
  | crash

/-- Sequencing of fallible VM operations: errors and crashes propagate. -/
def Res.bind {α β : Type} : Res α → (α → Res β) → Res β
  | .ok a, f => f a
  | .err m, _ => .err m
  | .crash, _ => .crash

@[simp] theorem Res.bind_ok {α β : Type} (a : α) (f : α → Res β) :
    Res.bind (.ok a) f = f a := rfl

@[simp] theorem Res.bind_err {α β : Type} (m : String) (f : α → Res β) :
    Res.bind (.err m) f = .err m := rfl

@[simp] theorem Res.bind_crash {α β : Type} (f : α → Res β) :
    Res.bind (.crash : Res α) f = .crash := rfl

theorem Res.bind_eq_ok {α β : Type} {x : Res α} {f : α → Res β} {b : β} :
    x.bind f = .ok b ↔ ∃ a, x = .ok a ∧ f a = .ok b := by
  cases x <;> simp [Res.bind]

/-- Pointwise update of a table modelled as a function. -/
def updFn {α : Type} (f : Nat → α) (i : Nat) (v : α) : Nat → α :=
  fun j => if j = i then v else f j

@[simp] theorem updFn_same {α : Type} (f : Nat → α) (i : Nat) (v : α) :
    updFn f i v i = v := by simp [updFn]

theorem updFn_other {α : Type} (f : Nat → α) (i j : Nat) (v : α) (h : j ≠ i) :
    updFn f i v j = f j := by simp [updFn, h]

/-- Modelled from the spec: a Frame (§4.2) holds the closure being executed
(represented by its compiled function), a signed instruction pointer with
initial value `-1`, and a base pointer into the value stack. -/
structure Frame where
  fn : CompiledFunction
  ip : Int
  basePointer : Int

/-- Modelled from the spec: `NewFrame` sets the instruction pointer to `-1`
so that the dispatch loop's pre-increment yields `0`. -/
def NewFrame (fn : CompiledFunction) (basePointer : Int) : Frame :=
  ⟨fn, -1, basePointer⟩

def StackSize : Nat := 2048
def GlobalsSize : Nat := 65536
def MaxFrames : Nat := 1024

/-- Modelled from the spec: the behaviour of one embedder-supplied built-in
function — a slice of values in, an optional value out (`none` models a Go
`nil` result, converted to `NULL` on push). -/
def BuiltinImpl : Type := List (Option Obj) → Option Obj

/-- The VM state: constant pool, built-ins table, value stack (a fixed 2048
slot array, `none` = Go nil slot), stack pointer, globals slab (fixed 65536
slots), frame stack (fixed 1024 slots) and frame index.  `sp` and
`framesIndex` are Go `int`s, hence `Int` here. -/
structure VMState where
  constants : List Obj
  builtins : List BuiltinImpl
  stack : Nat → Option Obj
  sp : Int
  globals : Nat → Option Obj
  frames : Nat → Option Frame
  framesIndex : Int

/-- NewVM: wrap the instruction stream in a synthetic top-level function
(zero locals and parameters, base pointer 0), push its frame, start with an
empty stack and globals slab. -/
def initialVM (instructions : List Nat) (constants : List Obj)
    (builtins : List BuiltinImpl) : VMState :=
  { constants := constants
    builtins := builtins
    stack := fun _ => none
    sp := 0
    globals := fun _ => none
    frames := updFn (fun _ => none) 0 (some (NewFrame ⟨instructions, 0, 0⟩ 0))
    framesIndex := 1 }

instance : Inhabited VMState := ⟨initialVM [] [] []⟩

/-- Read a value stack slot; out-of-range indices panic in Go. -/
def readStack (s : VMState) (i : Int) : Res (Option Obj) :=
  if 0 ≤ i ∧ i < (StackSize : Int) then .ok (s.stack i.toNat) else .crash

/-- Write a value stack slot; out-of-range indices panic in Go. -/
def writeStack (s : VMState) (i : Int) (v : Option Obj) : Res VMState :=
  if 0 ≤ i ∧ i < (StackSize : Int) then
    .ok { s with stack := updFn s.stack i.toNat v }
  else .crash

/-- vm.push: `if sp >= StackSize` return the error `"stack overflow"`, else
store at `stack[sp]` and increment `sp`. -/
def push (s : VMState) (obj : Option Obj) : Res VMState :=
  if (StackSize : Int) ≤ s.sp then .err "stack overflow"
  else (writeStack s s.sp obj).bind fun s1 => .ok { s1 with sp := s1.sp + 1 }

/-- vm.pop: read `stack[sp-1]` (no underflow check — Go panics when
`sp = 0`) and decrement `sp`. -/
def pop (s : VMState) : Res (Option Obj × VMState) :=
  (readStack s (s.sp - 1)).bind fun obj => .ok (obj, { s with sp := s.sp - 1 })

/-- vm.currentFrame: `frames[framesIndex-1]`; an out-of-range index or a nil
frame slot is a panic. -/
def currentFrame (s : VMState) : Res Frame :=
  if 0 ≤ s.framesIndex - 1 ∧ s.framesIndex - 1 < (MaxFrames : Int) then
    match s.frames (s.framesIndex - 1).toNat with
    | some fr => .ok fr
    | none => .crash
  else .crash

/-- Store back the (mutated) current frame; the Go source mutates the frame
through a pointer, which this write-back models. -/
def setCurrentFrame (s : VMState) (fr : Frame) : VMState :=
  { s with frames := updFn s.frames (s.framesIndex - 1).toNat (some fr) }

/-- vm.pushFrame: `frames[framesIndex] = f; framesIndex += 1`.  There is no
MaxFrames check: writing slot 1024 of the fixed 1024-slot array is a Go
panic, modelled as a crash. -/
def pushFrame (s : VMState) (fr : Frame) : Res VMState :=
  if 0 ≤ s.framesIndex ∧ s.framesIndex < (MaxFrames : Int) then
    .ok { s with frames := updFn s.frames s.framesIndex.toNat (some fr),
                 framesIndex := s.framesIndex + 1 }
  else .crash

/-- vm.popFrame: decrement `framesIndex` and return the frame stored there;
an out-of-range index or nil slot is a panic. -/
def popFrame (s : VMState) : Res (Frame × VMState) :=
  if 0 ≤ s.framesIndex - 1 ∧ s.framesIndex - 1 < (MaxFrames : Int) then
    match s.frames (s.framesIndex - 1).toNat with
    | some fr => .ok (fr, { s with framesIndex := s.framesIndex - 1 })
    | none => .crash
  else .crash

/-- Read one instruction byte (mod 256); out of range is a Go panic. -/
def readByte (instr : List Nat) (pos : Int) : Res Nat :=
  if 0 ≤ pos ∧ pos < (instr.length : Int) then .ok (instr.getD pos.toNat 0 % 256)
  else .crash

/-- Modelled from the spec: `bytecode.ReadUint16` — two big-endian bytes
(the `bytecode` package is not under `src/`); reading past the end of the
instruction buffer is a Go panic. -/
def readU16 (instr : List Nat) (pos : Int) : Res Nat :=
  (readByte instr pos).bind fun hi =>
  (readByte instr (pos + 1)).bind fun lo => .ok (256 * hi + lo)

/-- Read a constant; `vm.constants[idx]` with an out-of-range index is a Go
panic (the operand is trusted, never bounds-checked). -/
def readConstant (s : VMState) (idx : Nat) : Res Obj :=
  match s.constants.get? idx with
  | some c => .ok c
  | none => .crash

/-- Read the globals slab (fixed capacity 65536). -/
def readGlobal (s : VMState) (i : Nat) : Res (Option Obj) :=
  if i < GlobalsSize then .ok (s.globals i) else .crash

/-- Write the globals slab (fixed capacity 65536). -/
def writeGlobal (s : VMState) (i : Nat) (v : Option Obj) : Res VMState :=
  if i < GlobalsSize then .ok { s with globals := updFn s.globals i v } else .crash

/-! ## The opcode set

Modelled from the spec: the `bytecode` package (opcode byte constants) is
not under `src/`.  The byte values below follow the instruction table of
§4.1 in order; the dispatch is on these symbolic constants exactly as the
Go `switch` is, so no claim depends on the particular numbers. -/

def opConstant : Nat := 0
def opTrue : Nat := 1
def opFalse : Nat := 2
def opNull : Nat := 3
def opPop : Nat := 4
def opAdd : Nat := 5
def opSub : Nat := 6
def opMul : Nat := 7
def opDiv : Nat := 8
def opEqual : Nat := 9
def opNotEqual : Nat := 10
def opGreaterThan : Nat := 11
def opMinus : Nat := 12
def opBang : Nat := 13
def opJump : Nat := 14
def opJumpNotTruthy : Nat := 15
def opGetGlobal : Nat := 16
def opSetGlobal : Nat := 17
def opGetLocal : Nat := 18
def opSetLocal : Nat := 19
def opGetBuiltIn : Nat := 20
def opArray : Nat := 21
def opHashMap : Nat := 22
def opIndex : Nat := 23
def opCall : Nat := 24
def opReturnValue : Nat := 25
def opReturn : Nat := 26
def opClosure : Nat := 27

/-- The recognised opcodes, one constructor per `case` of the dispatch
`switch` in `Run()`. -/
inductive Op where
  | const | tru | fls | nul | pop | add | sub | mul | div
  | eq | neq | gt | minus | bang | jump | jumpNotTruthy
  | getGlobal | setGlobal | getLocal | setLocal | getBuiltIn
  | array | hashMap | index | call | returnValue | ret | closure
deriving DecidableEq

/-- Decode an opcode byte; an unrecognised byte falls to the `default`
branch of the `switch` (the `"invalid opcode received"` error). -/
def decode : Nat → Option Op
  | 0 => some .const
  | 1 => some .tru
  | 2 => some .fls
  | 3 => some .nul
  | 4 => some .pop
  | 5 => some .add
  | 6 => some .sub
  | 7 => some .mul
  | 8 => some .div
  | 9 => some .eq
  | 10 => some .neq
  | 11 => some .gt
  | 12 => some .minus
  | 13 => some .bang
  | 14 => some .jump
  | 15 => some .jumpNotTruthy
  | 16 => some .getGlobal
  | 17 => some .setGlobal
  | 18 => some .getLocal
  | 19 => some .setLocal
  | 20 => some .getBuiltIn
  | 21 => some .array
  | 22 => some .hashMap
  | 23 => some .index
  | 24 => some .call
  | 25 => some .returnValue
  | 26 => some .ret
  | 27 => some .closure
  | _ => none

/-! ## Operator routines -/

/-- Two's-complement wrap-around at 64 bits, the Go `int64` semantics. -/
def wrap64 (x : Int) : Int := (x + 2 ^ 63) % 2 ^ 64 - 2 ^ 63

/-- isTruthy: `FALSE` and `NULL` are false, everything else (including a Go
nil value, which matches no case of the type switch) is true. -/
def isTruthy : Option Obj → Bool
  | some (.boolObj b) => b
  | some .nullObj => false
  | _ => true

/-- nativeBoolToBooleanObject. -/
def nativeBoolToBooleanObject (b : Bool) : Obj := .boolObj b

/-- vm.executeBinaryIntegerOperation: native `int64` arithmetic; division
truncates toward zero and divides by zero following host semantics (a Go
panic, modelled as a crash). -/
def executeBinaryIntegerOperation (s : VMState) (opb : Nat) (l r : Int) :
    Res VMState :=
  if opb = opAdd then push s (some (.intObj (wrap64 (l + r))))
  else if opb = opSub then push s (some (.intObj (wrap64 (l - r))))
  else if opb = opMul then push s (some (.intObj (wrap64 (l * r))))
  else if opb = opDiv then
    if r = 0 then .crash else push s (some (.intObj (wrap64 (Int.tdiv l r))))
  else .err ("unknown binary integer operator: " ++ toString opb)

/-- vm.executeBinaryStringOperation: only `OpAdd` (concatenation). -/
def executeBinaryStringOperation (s : VMState) (opb : Nat) (l r : String) :
    Res VMState :=
  if opb = opAdd then push s (some (.strObj (l ++ r)))
  else .err ("unknown binary string operator: " ++ toString opb)

/-- vm.executeBinaryOperation: pop right then left; Integer/Integer and
String/String dispatch, every other pair (a nil operand panics on
`.Type()`) is the `"unsupported types for binary operation"` error. -/
def executeBinaryOperation (s : VMState) (opb : Nat) : Res VMState :=
  (pop s).bind fun pr =>
  (pop pr.2).bind fun pl =>
  match pr.1, pl.1 with
  | some r, some l =>
    match l, r with
    | .intObj a, .intObj b => executeBinaryIntegerOperation pl.2 opb a b
    | .strObj a, .strObj b => executeBinaryStringOperation pl.2 opb a b
    | _, _ =>
      .err ("unsupported types for binary operation: " ++ l.typeName ++ " " ++
        r.typeName)
  | _, _ => .crash

/-- vm.executeIntegerComparison. -/
def executeIntegerComparison (s : VMState) (opb : Nat) (l r : Int) :
    Res VMState :=
  if opb = opEqual then push s (some (nativeBoolToBooleanObject (decide (l = r))))
  else if opb = opNotEqual then
    push s (some (nativeBoolToBooleanObject (decide (l ≠ r))))
  else if opb = opGreaterThan then
    push s (some (nativeBoolToBooleanObject (decide (r < l))))
  else .err ("unknown binary integer comparison operator: " ++ toString opb)

/-- vm.executeBooleanComparison: `OpGreaterThan` on booleans falls through
to the `"unknown binary boolean comparison operator"` error. -/
def executeBooleanComparison (s : VMState) (opb : Nat) (l r : Bool) :
    Res VMState :=
  if opb = opEqual then push s (some (nativeBoolToBooleanObject (l == r)))
  else if opb = opNotEqual then push s (some (nativeBoolToBooleanObject (l != r)))
  else .err ("unknown binary boolean comparison operator: " ++ toString opb)

/-- vm.executeComparison: pop right then left; Integer/Integer and
Boolean/Boolean dispatch, everything else (including same-type pairs such
as String/String) is the `"unsupported types for binary comparison"`
error. -/
def executeComparison (s : VMState) (opb : Nat) : Res VMState :=
  (pop s).bind fun pr =>
  (pop pr.2).bind fun pl =>
  match pr.1, pl.1 with
  | some r, some l =>
    match l, r with
    | .intObj a, .intObj b => executeIntegerComparison pl.2 opb a b
    | .boolObj a, .boolObj b => executeBooleanComparison pl.2 opb a b
    | _, _ =>
      .err ("unsupported types for binary comparison: " ++ l.typeName ++ " " ++
        r.typeName)
  | _, _ => .crash

/-- vm.executeMinusOperator: pop; error unless an integer; push negation. -/
def executeMinusOperator (s : VMState) : Res VMState :=
  (pop s).bind fun p =>
  match p.1 with
  | some (.intObj v) => push p.2 (some (.intObj (wrap64 (-v))))
  | some o => .err ("unsupported type for negation: " ++ o.typeName)
  | none => .crash

/-- vm.executeBangOperator: pop; `TRUE→FALSE`, `FALSE→TRUE`, `NULL→TRUE`,
everything else (including a nil slot) `→FALSE`. -/
def executeBangOperator (s : VMState) : Res VMState :=
  (pop s).bind fun p =>
  match p.1 with
  | some (.boolObj true) => push p.2 (some (.boolObj false))
  | some (.boolObj false) => push p.2 (some (.boolObj true))
  | some .nullObj => push p.2 (some (.boolObj true))
  | _ => push p.2 (some (.boolObj false))

/-- Read `count` consecutive stack slots starting at `st` (each read
bounds-checked like the Go indexing it models). -/
def readStackRange (s : VMState) : Int → Nat → Res (List (Option Obj))
  | _, 0 => .ok []
  | st, count + 1 =>
    (readStack s st).bind fun v =>
    (readStackRange s (st + 1) count).bind fun vs => .ok (v :: vs)

/-- vm.buildArray: collect `stack[startIndex .. endIndex]` in order. -/
def buildArray (s : VMState) (startIndex endIndex : Int) : Res Obj :=
  (readStackRange s startIndex (endIndex - startIndex).toNat).bind fun vs =>
  .ok (.arrayObj vs)

/-- Insert into the hash-map pair list with Go map semantics: a later pair
with the same key wins. -/
def hmInsert (ps : List (HashKey × Obj × Option Obj)) (k : HashKey)
    (key : Obj) (v : Option Obj) : List (HashKey × Obj × Option Obj) :=
  ps.filter (fun p => p.1 ≠ k) ++ [(k, key, v)]

/-- One iteration batch of vm.buildHashMap's loop: `count` iterations, each
reading a key and a value slot (a nil key panics in the error path, a
non-hashable key is the `"unusable as hash key"` error). -/
def buildHashPairs (s : VMState) :
    Int → Nat → List (HashKey × Obj × Option Obj) →
    Res (List (HashKey × Obj × Option Obj))
  | _, 0, acc => .ok acc
  | i, count + 1, acc =>
    (readStack s i).bind fun keySlot =>
    (readStack s (i + 1)).bind fun valSlot =>
    match keySlot with
    | none => .crash
    | some key =>
      match hashKeyOf key with
      | none => .err ("unusable as hash key: " ++ key.typeName)
      | some k => buildHashPairs s (i + 2) count (hmInsert acc k key valSlot)

/-- vm.buildHashMap over `stack[startIndex .. endIndex]`: the Go loop steps
`i` by 2 while `i < endIndex`, i.e. `⌈(endIndex − startIndex)/2⌉` times. -/
def buildHashMap (s : VMState) (startIndex endIndex : Int) : Res Obj :=
  (buildHashPairs s startIndex (((endIndex - startIndex).toNat + 1) / 2) []).bind
    fun ps => .ok (.hashObj ps)

/-- vm.executeArrayIndex: `i < 0` or `i > len-1` pushes `NULL`, otherwise
the element. -/
def executeArrayIndex (s : VMState) (elements : List (Option Obj)) (i : Int) :
    Res VMState :=
  if i < 0 ∨ (elements.length : Int) - 1 < i then push s (some .nullObj)
  else push s (elements.getD i.toNat none)

/-- vm.executeHashMapIndex: a nil index panics on `.Type()` in the error
path; a non-hashable index is the `"unusable as hash key"` error; a missing
key pushes `NULL`. -/
def executeHashMapIndex (s : VMState) (ps : List (HashKey × Obj × Option Obj))
    (index : Option Obj) : Res VMState :=
  match index with
  | none => .crash
  | some idx =>
    match hashKeyOf idx with
    | none => .err ("unusable as hash key: " ++ idx.typeName)
    | some k =>
      match ps.find? (fun p => p.1 = k) with
      | some p => push s p.2.2
      | none => push s (some .nullObj)

/-- vm.executeIndexExpression: Array-by-Integer and HashMap dispatch; a nil
container (or a nil index tested by the Array case) panics on `.Type()`;
anything else is the `"index operator not supported"` error. -/
def executeIndexExpression (s : VMState) (left index : Option Obj) :
    Res VMState :=
  match left with
  | none => .crash
  | some l =>
    match l, index with
    | .arrayObj _, none => .crash
    | .arrayObj es, some (.intObj i) => executeArrayIndex s es i
    | .hashObj ps, idx => executeHashMapIndex s ps idx
    | _, _ => .err ("index operator not supported: " ++ l.typeName)

/-- vm.callClosure: arity check, then push a frame with
`base_pointer = sp − numArgs` and reserve the local slots by setting
`sp = base_pointer + numLocals` — with no stack-capacity check. -/
def callClosure (s : VMState) (fn : CompiledFunction) (numArgs : Nat) :
    Res VMState :=
  if numArgs ≠ fn.numParameters then
    .err ("wrong number of arguments: expected=" ++ toString fn.numParameters ++
      ", got=" ++ toString numArgs)
  else
    let fr := NewFrame fn (s.sp - numArgs)
    (pushFrame s fr).bind fun s1 =>
    .ok { s1 with sp := fr.basePointer + fn.numLocals }

/-- Push with the returned error dropped, as `vm.callBuiltIn` does. -/
def pushDropErr (s : VMState) (obj : Option Obj) : Res VMState :=
  match push s obj with
  | .ok s1 => .ok s1
  | .err _ => .ok s
  | .crash => .crash

/-- vm.callBuiltIn: slice the arguments (Go slicing panics when the bounds
are out of range), invoke, pop arguments and callee, push the result — a
nil result becomes `NULL`; the push's error value is discarded by the
source. -/
def callBuiltIn (s : VMState) (idx numArgs : Nat) : Res VMState :=
  if 0 ≤ s.sp - numArgs ∧ s.sp ≤ (StackSize : Int) then
    (readStackRange s (s.sp - numArgs) numArgs).bind fun args =>
    match s.builtins.get? idx with
    | none => .crash
    | some f =>
      let s2 := { s with sp := s.sp - numArgs - 1 }
      match f args with
      | some r => pushDropErr s2 (some r)
      | none => pushDropErr s2 (some .nullObj)
  else .crash

/-- vm.executeCall: the callee sits below the arguments; closures and
built-ins dispatch, anything else (including a nil slot) is the
`"attempted to call non-closure and non-builtin"` error. -/
def executeCall (s : VMState) (numArgs : Nat) : Res VMState :=
  (readStack s (s.sp - 1 - numArgs)).bind fun callee =>
  match callee with
  | some (.closureObj fn) => callClosure s fn numArgs
  | some (.builtinObj i) => callBuiltIn s i numArgs
  | _ => .err "attempted to call non-closure and non-builtin"

/-- vm.pushClosure: read the constant (a trusted index — out of range is a
panic); a non-function constant is the `"not a function"` error. -/
def pushClosure (s : VMState) (constIndex : Nat) : Res VMState :=
  (readConstant s constIndex).bind fun c =>
  match c with
  | .compiledFnObj fn => push s (some (.closureObj fn))
  | _ => .err "not a function: <nil>"

/-! ## The dispatch loop -/

/-- Advance the current frame's instruction pointer by `n` (the
`vm.currentFrame().ip += n` operand consumption). -/
def advanceIp (s : VMState) (n : Int) : Res VMState :=
  (currentFrame s).bind fun fr =>
  .ok (setCurrentFrame s { fr with ip := fr.ip + n })

/-- Set the current frame's instruction pointer to `n` (the jump
assignments). -/
def setIp (s : VMState) (n : Int) : Res VMState :=
  (currentFrame s).bind fun fr =>
  .ok (setCurrentFrame s { fr with ip := n })

/-- One `case` of the dispatch `switch`: `instr` and `ip` are the loop's
local copies (taken before any operand consumption), `s` already has the
pre-incremented instruction pointer stored. -/
def execOp (s : VMState) (instr : List Nat) (ip : Int) : Op → Res VMState
  | .const =>
    (readU16 instr (ip + 1)).bind fun constIndex =>
    (advanceIp s 2).bind fun s1 =>
    (readConstant s1 constIndex).bind fun c => push s1 (some c)
  | .tru => push s (some (.boolObj true))
  | .fls => push s (some (.boolObj false))
  | .nul => push s (some .nullObj)
  | .pop => (pop s).bind fun p => .ok p.2
  | .jumpNotTruthy =>
    (readU16 instr (ip + 1)).bind fun jumpToPos =>
    (advanceIp s 2).bind fun s1 =>
    (pop s1).bind fun p =>
    if isTruthy p.1 then .ok p.2 else setIp p.2 ((jumpToPos : Int) - 1)
  | .jump =>
    (readU16 instr (ip + 1)).bind fun jumpToPos =>
    setIp s ((jumpToPos : Int) - 1)
  | .add => executeBinaryOperation s opAdd
  | .sub => executeBinaryOperation s opSub
  | .mul => executeBinaryOperation s opMul
  | .div => executeBinaryOperation s opDiv
  | .eq => executeComparison s opEqual
  | .neq => executeComparison s opNotEqual
  | .gt => executeComparison s opGreaterThan
  | .minus => executeMinusOperator s
  | .bang => executeBangOperator s
  | .getGlobal =>
    (readU16 instr (ip + 1)).bind fun globalIndex =>
    (advanceIp s 2).bind fun s1 =>
    (readGlobal s1 globalIndex).bind fun v => push s1 v
  | .setGlobal =>
    (readU16 instr (ip + 1)).bind fun globalIndex =>
    (advanceIp s 2).bind fun s1 =>
    (pop s1).bind fun p => writeGlobal p.2 globalIndex p.1
  | .getLocal =>
    (readByte instr (ip + 1)).bind fun localIndex =>
    (advanceIp s 1).bind fun s1 =>
    (currentFrame s1).bind fun fr =>
    (readStack s1 (fr.basePointer + localIndex)).bind fun v => push s1 v
  | .setLocal =>
    (readByte instr (ip + 1)).bind fun localIndex =>
    (advanceIp s 1).bind fun s1 =>
    (currentFrame s1).bind fun fr =>
    (pop s1).bind fun p => writeStack p.2 (fr.basePointer + localIndex) p.1
  | .array =>
    (readU16 instr (ip + 1)).bind fun numElements =>
    (advanceIp s 2).bind fun s1 =>
    (buildArray s1 (s1.sp - numElements) s1.sp).bind fun arr =>
    push { s1 with sp := s1.sp - numElements } (some arr)
  | .hashMap =>
    (readU16 instr (ip + 1)).bind fun numElements =>
    (advanceIp s 2).bind fun s1 =>
    (buildHashMap s1 (s1.sp - numElements) s1.sp).bind fun hm =>
    push { s1 with sp := s1.sp - numElements } (some hm)
  | .index =>
    (pop s).bind fun pIdx =>
    (pop pIdx.2).bind fun pLeft =>
    executeIndexExpression pLeft.2 pLeft.1 pIdx.1
  | .call =>
    (readByte instr (ip + 1)).bind fun numArgs =>
    (advanceIp s 1).bind fun s1 =>
    executeCall s1 numArgs
  | .returnValue =>
    (pop s).bind fun p =>
    (popFrame p.2).bind fun fp =>
    push { fp.2 with sp := fp.1.basePointer - 1 } p.1
  | .ret =>
    (popFrame s).bind fun fp =>
    push { fp.2 with sp := fp.1.basePointer - 1 } (some .nullObj)
  | .getBuiltIn =>
    (readByte instr (ip + 1)).bind fun builtInIndex =>
    (advanceIp s 1).bind fun s1 =>
    if builtInIndex < s1.builtins.length then push s1 (some (.builtinObj builtInIndex))
    else .crash
  | .closure =>
    (readU16 instr (ip + 1)).bind fun constIndex =>
    (advanceIp s 3).bind fun s1 =>
    pushClosure s1 constIndex

/-- One full loop iteration after the condition check: pre-increment the
instruction pointer, fetch and decode the opcode, dispatch. -/
def fetchExec (s : VMState) : Res VMState :=
  (currentFrame s).bind fun fr =>
  let ip := fr.ip + 1
  let s1 := setCurrentFrame s { fr with ip := ip }
  let instr := fr.fn.instructions
  (readByte instr ip).bind fun b =>
  match decode b with
  | none => .err ("invalid opcode received: " ++ toString b)
  | some op => execOp s1 instr ip op

/-- Result of advancing the dispatch loop by one iteration: a new
instruction boundary, normal loop exit, an error surfaced by `Run()`, or a
Go runtime panic. -/
inductive RunRes where
  | running (s : VMState)
  | halted (s : VMState)
  | errored (msg : String)
  | crashed

/-- One loop iteration before packaging: `some` a new boundary state,
`none` when the loop condition fails (normal exit). -/
def stepCore (s : VMState) : Res (Option VMState) :=
  (currentFrame s).bind fun fr =>
  if fr.ip < (fr.fn.instructions.length : Int) - 1 then
    (fetchExec s).bind fun s1 => .ok (some s1)
  else .ok none

/-- Package a core outcome as a `RunRes`. -/
def mkRun (s : VMState) : Res (Option VMState) → RunRes
  | .ok (some s1) => .running s1
  | .ok none => .halted s
  | .err m => .errored m
  | .crash => .crashed

@[simp] theorem mkRun_ok_some (s s1 : VMState) :
    mkRun s (.ok (some s1)) = .running s1 := rfl

@[simp] theorem mkRun_ok_none (s : VMState) :
    mkRun s (.ok none) = .halted s := rfl

@[simp] theorem mkRun_err (s : VMState) (m : String) :
    mkRun s (.err m) = .errored m := rfl

@[simp] theorem mkRun_crash (s : VMState) :
    mkRun s (.crash : Res (Option VMState)) = .crashed := rfl

/-- One iteration of `Run()`'s loop: test the loop condition
`currentFrame().ip < len(instructions) − 1`, then fetch-decode-execute. -/
def step (s : VMState) : RunRes := mkRun s (stepCore s)

/-- `n` iterations of the loop from a boundary state (tail-recursive:
`stepIter (n+1) s` steps once and iterates from the new boundary). -/
def stepIter : Nat → VMState → RunRes
  | 0, s => .running s
  | n + 1, s =>
    match step s with
    | .running s1 => stepIter n s1
    | r => r

/-- Peel the last iteration off instead: `stepIter (n+1) s` is `step`
applied to the `n`-th boundary. -/
theorem stepIter_succ_end (n : Nat) (s : VMState) :
    stepIter (n + 1) s =
      match stepIter n s with
      | .running s1 => step s1
      | r => r := by
  induction n generalizing s with
  | zero =>
    show (match step s with | RunRes.running s1 => stepIter 0 s1 | r => r) = step s
    cases step s <;> rfl
  | succ n ih =>
    cases h : step s with
    | running s1 =>
      have hs : stepIter (n + 1) s = stepIter n s1 := by
        show (match step s with | RunRes.running t => stepIter n t | r => r) = _
        rw [h]
      calc stepIter (n + 1 + 1) s = stepIter (n + 1) s1 := by
            show (match step s with | RunRes.running t => stepIter (n + 1) t | r => r) = _
            rw [h]
        _ = _ := by rw [ih s1, hs]
    | halted s1 =>
      have hs : stepIter (n + 1) s = RunRes.halted s1 := by
        show (match step s with | RunRes.running t => stepIter n t | r => r) = _
        rw [h]
      calc stepIter (n + 1 + 1) s = RunRes.halted s1 := by
            show (match step s with | RunRes.running t => stepIter (n + 1) t | r => r) = _
            rw [h]
        _ = _ := by rw [hs]
    | errored m =>
      have hs : stepIter (n + 1) s = RunRes.errored m := by
        show (match step s with | RunRes.running t => stepIter n t | r => r) = _
        rw [h]
      calc stepIter (n + 1 + 1) s = RunRes.errored m := by
            show (match step s with | RunRes.running t => stepIter (n + 1) t | r => r) = _
            rw [h]
        _ = _ := by rw [hs]
    | crashed =>
      have hs : stepIter (n + 1) s = RunRes.crashed := by
        show (match step s with | RunRes.running t => stepIter n t | r => r) = _
        rw [h]
      calc stepIter (n + 1 + 1) s = RunRes.crashed := by
            show (match step s with | RunRes.running t => stepIter (n + 1) t | r => r) = _
            rw [h]
        _ = _ := by rw [hs]

/-- The instruction boundaries of a run: states reached from the initial
state by finitely many loop iterations. -/
def Reachable (instructions : List Nat) (constants : List Obj)
    (builtins : List BuiltinImpl) (s : VMState) : Prop :=
  ∃ n, stepIter n (initialVM instructions constants builtins) = .running s

/-- vm.StackTop. -/
def StackTop (s : VMState) : Option Obj :=
  if s.sp = 0 then none else s.stack (s.sp - 1).toNat

/-- vm.LastPoppedStackElem: `stack[sp]`. -/
def LastPoppedStackElem (s : VMState) : Option Obj := s.stack s.sp.toNat

/-! ## Observations on run results (used to state closed facts about
concrete runs without comparing whole states) -/

def RunRes.isErrored : RunRes → Bool
  | .errored _ => true
  | _ => false

def RunRes.isCrashed : RunRes → Bool
  | .crashed => true
  | _ => false

def RunRes.errMsg : RunRes → Option String
  | .errored m => some m
  | _ => none

def RunRes.spOf : RunRes → Option Int
  | .running s => some s.sp
  | _ => none

def RunRes.fiOf : RunRes → Option Int
  | .running s => some s.framesIndex
  | _ => none

def RunRes.stateD : RunRes → VMState
  | .running s => s
  | .halted s => s
  | _ => default

/-- The opcode about to be executed at a boundary state (current frame,
pre-incremented position), when everything is in range. -/
def fetchedOp (s : VMState) : Option Op :=
  match currentFrame s with
  | .ok fr =>
    match readByte fr.fn.instructions (fr.ip + 1) with
    | .ok b => decode b
    | _ => none
  | _ => none

/-! ## Inversion lemmas for the VM primitives -/

theorem stackSize_int : (StackSize : Int) = 2048 := rfl

theorem maxFrames_int : (MaxFrames : Int) = 1024 := rfl

theorem readStack_ok {s : VMState} {i : Int} {v : Option Obj}
    (h : readStack s i = .ok v) :
    0 ≤ i ∧ i < 2048 ∧ v = s.stack i.toNat := by
  unfold readStack at h
  split at h
  · next hc => exact ⟨hc.1, by rw [stackSize_int] at hc; omega, by
      cases h; rfl⟩
  · cases h

theorem writeStack_ok {s : VMState} {i : Int} {v : Option Obj} {s1 : VMState}
    (h : writeStack s i v = .ok s1) :
    0 ≤ i ∧ i < 2048 ∧ s1 = { s with stack := updFn s.stack i.toNat v } := by
  unfold writeStack at h
  split at h
  · next hc => exact ⟨hc.1, by rw [stackSize_int] at hc; omega, by
      cases h; rfl⟩
  · cases h

theorem push_ok {s : VMState} {v : Option Obj} {s1 : VMState}
    (h : push s v = .ok s1) :
    0 ≤ s.sp ∧ s.sp < 2048 ∧
      s1 = { s with stack := updFn s.stack s.sp.toNat v, sp := s.sp + 1 } := by
  unfold push at h
  split at h
  · cases h
  · rw [Res.bind_eq_ok] at h
    obtain ⟨s2, hw, h2⟩ := h
    obtain ⟨h0, hlt, rfl⟩ := writeStack_ok hw
    cases h2
    exact ⟨h0, hlt, rfl⟩

theorem push_err {s : VMState} {v : Option Obj} {m : String}
    (h : push s v = .err m) : m = "stack overflow" ∧ 2048 ≤ s.sp := by
  unfold push at h
  split at h
  · next hc => cases h; exact ⟨rfl, by rw [stackSize_int] at hc; omega⟩
  · rw [show (2048 : Int) = (StackSize : Int) from rfl]
    unfold writeStack at h
    split at h <;> simp [Res.bind] at h

theorem pop_ok {s : VMState} {p : Option Obj × VMState}
    (h : pop s = .ok p) :
    1 ≤ s.sp ∧ s.sp ≤ 2048 ∧
      p = (s.stack (s.sp - 1).toNat, { s with sp := s.sp - 1 }) := by
  unfold pop at h
  rw [Res.bind_eq_ok] at h
  obtain ⟨v, hr, h2⟩ := h
  obtain ⟨h0, hlt, rfl⟩ := readStack_ok hr
  cases h2
  exact ⟨by omega, by omega, rfl⟩

theorem currentFrame_ok {s : VMState} {fr : Frame}
    (h : currentFrame s = .ok fr) :
    1 ≤ s.framesIndex ∧ s.framesIndex ≤ 1024 ∧
      s.frames (s.framesIndex - 1).toNat = some fr := by
  unfold currentFrame at h
  split at h
  · next hc =>
    rw [maxFrames_int] at hc
    split at h
    · next hf => cases h; exact ⟨by omega, by omega, hf⟩
    · cases h
  · cases h

theorem pushFrame_ok {s : VMState} {fr : Frame} {s1 : VMState}
    (h : pushFrame s fr = .ok s1) :
    0 ≤ s.framesIndex ∧ s.framesIndex < 1024 ∧
      s1 = { s with frames := updFn s.frames s.framesIndex.toNat (some fr),
                    framesIndex := s.framesIndex + 1 } := by
  unfold pushFrame at h
  split at h
  · next hc => cases h; exact ⟨hc.1, by rw [maxFrames_int] at hc; omega, rfl⟩
  · cases h

theorem pushFrame_crash_of_full {s : VMState} {fr : Frame}
    (h : s.framesIndex = 1024) : pushFrame s fr = .crash := by
  unfold pushFrame
  rw [if_neg]
  rw [maxFrames_int, h]
  omega

theorem popFrame_ok {s : VMState} {p : Frame × VMState}
    (h : popFrame s = .ok p) :
    1 ≤ s.framesIndex ∧ s.framesIndex ≤ 1024 ∧
      s.frames (s.framesIndex - 1).toNat = some p.1 ∧
      p.2 = { s with framesIndex := s.framesIndex - 1 } := by
  unfold popFrame at h
  split at h
  · next hc =>
    rw [maxFrames_int] at hc
    split at h
    · next hf => cases h; exact ⟨by omega, by omega, hf, rfl⟩
    · cases h
  · cases h

theorem advanceIp_ok {s : VMState} {n : Int} {s1 : VMState}
    (h : advanceIp s n = .ok s1) :
    ∃ fr, currentFrame s = .ok fr ∧
      s1 = setCurrentFrame s { fr with ip := fr.ip + n } := by
  unfold advanceIp at h
  rw [Res.bind_eq_ok] at h
  obtain ⟨fr, hc, h2⟩ := h
  cases h2
  exact ⟨fr, hc, rfl⟩

theorem setIp_ok {s : VMState} {n : Int} {s1 : VMState}
    (h : setIp s n = .ok s1) :
    ∃ fr, currentFrame s = .ok fr ∧
      s1 = setCurrentFrame s { fr with ip := n } := by
  unfold setIp at h
  rw [Res.bind_eq_ok] at h
  obtain ⟨fr, hc, h2⟩ := h
  cases h2
  exact ⟨fr, hc, rfl⟩

theorem readGlobal_ok {s : VMState} {i : Nat} {v : Option Obj}
    (h : readGlobal s i = .ok v) : v = s.globals i := by
  unfold readGlobal at h
  split at h
  · cases h; rfl
  · cases h

theorem writeGlobal_ok {s : VMState} {i : Nat} {v : Option Obj} {s1 : VMState}
    (h : writeGlobal s i v = .ok s1) :
    s1 = { s with globals := updFn s.globals i v } := by
  unfold writeGlobal at h
  split at h
  · cases h; rfl
  · cases h

theorem readConstant_ok {s : VMState} {i : Nat} {c : Obj}
    (h : readConstant s i = .ok c) : s.constants.get? i = some c := by
  unfold readConstant at h
  split at h
  · next heq => cases h; exact heq
  · cases h

theorem readStackRange_nonneg {s : VMState} {st : Int} {n : Nat}
    {vs : List (Option Obj)} (h : readStackRange s st n = .ok vs)
    (hn : 1 ≤ n) : 0 ≤ st := by
  cases n with
  | zero => omega
  | succ m =>
    unfold readStackRange at h
    rw [Res.bind_eq_ok] at h
    obtain ⟨v, hr, _⟩ := h
    exact (readStack_ok hr).1

/-- `setCurrentFrame` touches only the frame slots; a shape fact used
everywhere. -/
theorem setCurrentFrame_fields (s : VMState) (fr : Frame) :
    (setCurrentFrame s fr).sp = s.sp ∧
    (setCurrentFrame s fr).framesIndex = s.framesIndex ∧
    (setCurrentFrame s fr).stack = s.stack ∧
    (setCurrentFrame s fr).globals = s.globals ∧
    (setCurrentFrame s fr).constants = s.constants ∧
    (setCurrentFrame s fr).builtins = s.builtins :=
  ⟨rfl, rfl, rfl, rfl, rfl, rfl⟩

theorem currentFrame_setCurrentFrame {s : VMState} {fr0 : Frame} (fr : Frame)
    (hc : currentFrame s = .ok fr0) :
    currentFrame (setCurrentFrame s fr) = .ok fr := by
  unfold currentFrame at hc ⊢
  split at hc
  · next hcond =>
    rw [setCurrentFrame]
    rw [if_pos hcond]
    simp [updFn]
  · cases hc

/-- The frame-0 base-pointer invariant: the synthetic top-level frame's
base pointer is 0. -/
def main0 (s : VMState) : Prop :=
  ∀ fr, s.frames 0 = some fr → fr.basePointer = 0

theorem main0_setCurrentFrame {s : VMState} {fr0 fr : Frame}
    (hm : main0 s) (hc : currentFrame s = .ok fr0)
    (hb : fr.basePointer = fr0.basePointer) :
    main0 (setCurrentFrame s fr) := by
  intro g hg
  obtain ⟨h1, h2, hf⟩ := currentFrame_ok hc
  unfold setCurrentFrame updFn at hg
  simp only at hg
  by_cases h0 : (0 : Nat) = (s.framesIndex - 1).toNat
  · rw [if_pos h0] at hg
    cases hg
    rw [hb]
    rw [← h0] at hf
    exact hm fr0 hf
  · rw [if_neg h0] at hg
    exact hm g hg

/-! ## Effect lemmas for the operator routines -/

theorem executeBinaryIntegerOperation_ok {s : VMState} {opb : Nat} {l r : Int}
    {s1 : VMState} (h : executeBinaryIntegerOperation s opb l r = .ok s1) :
    ∃ v, push s v = .ok s1 := by
  unfold executeBinaryIntegerOperation at h
  split_ifs at h <;> first | exact ⟨_, h⟩ | cases h

theorem executeBinaryStringOperation_ok {s : VMState} {opb : Nat}
    {l r : String} {s1 : VMState}
    (h : executeBinaryStringOperation s opb l r = .ok s1) :
    ∃ v, push s v = .ok s1 := by
  unfold executeBinaryStringOperation at h
  split_ifs at h <;> first | exact ⟨_, h⟩ | cases h

theorem executeIntegerComparison_ok {s : VMState} {opb : Nat} {l r : Int}
    {s1 : VMState} (h : executeIntegerComparison s opb l r = .ok s1) :
    ∃ v, push s v = .ok s1 := by
  unfold executeIntegerComparison at h
  split_ifs at h <;> first | exact ⟨_, h⟩ | cases h

theorem executeBooleanComparison_ok {s : VMState} {opb : Nat} {l r : Bool}
    {s1 : VMState} (h : executeBooleanComparison s opb l r = .ok s1) :
    ∃ v, push s v = .ok s1 := by
  unfold executeBooleanComparison at h
  split_ifs at h <;> first | exact ⟨_, h⟩ | cases h

/-- A binary arithmetic step pops twice and pushes once: the new depth is
the old minus one, within bounds, and the frame stack is untouched. -/
theorem executeBinaryOperation_ok {s : VMState} {opb : Nat} {s1 : VMState}
    (h : executeBinaryOperation s opb = .ok s1) :
    s1.frames = s.frames ∧ s1.framesIndex = s.framesIndex ∧
      s1.sp = s.sp - 1 ∧ 1 ≤ s1.sp ∧ s1.sp ≤ 2048 := by
  unfold executeBinaryOperation at h
  rw [Res.bind_eq_ok] at h
  obtain ⟨pr, hpr, h⟩ := h
  rw [Res.bind_eq_ok] at h
  obtain ⟨pl, hpl, h⟩ := h
  obtain ⟨hr1, hr2, rfl⟩ := pop_ok hpr
  obtain ⟨hl1, hl2, rfl⟩ := pop_ok hpl
  simp only at h hl1 hl2
  have hpush : ∃ v, push { s with sp := s.sp - 1 - 1 } v = .ok s1 := by
    split at h
    · split at h
      · exact executeBinaryIntegerOperation_ok h
      · exact executeBinaryStringOperation_ok h
      · cases h
    · cases h
  obtain ⟨v, hp⟩ := hpush
  obtain ⟨hp0, hp1, rfl⟩ := push_ok hp
  refine ⟨rfl, rfl, ?_, ?_, ?_⟩ <;> simp <;> omega

/-- A comparison step pops twice and pushes once. -/
theorem executeComparison_ok {s : VMState} {opb : Nat} {s1 : VMState}
    (h : executeComparison s opb = .ok s1) :
    s1.frames = s.frames ∧ s1.framesIndex = s.framesIndex ∧
      s1.sp = s.sp - 1 ∧ 1 ≤ s1.sp ∧ s1.sp ≤ 2048 := by
  unfold executeComparison at h
  rw [Res.bind_eq_ok] at h
  obtain ⟨pr, hpr, h⟩ := h
  rw [Res.bind_eq_ok] at h
  obtain ⟨pl, hpl, h⟩ := h
  obtain ⟨hr1, hr2, rfl⟩ := pop_ok hpr
  obtain ⟨hl1, hl2, rfl⟩ := pop_ok hpl
  simp only at h hl1 hl2
  have hpush : ∃ v, push { s with sp := s.sp - 1 - 1 } v = .ok s1 := by
    split at h
    · split at h
      · exact executeIntegerComparison_ok h
      · exact executeBooleanComparison_ok h
      · cases h
    · cases h
  obtain ⟨v, hp⟩ := hpush
  obtain ⟨hp0, hp1, rfl⟩ := push_ok hp
  refine ⟨rfl, rfl, ?_, ?_, ?_⟩ <;> simp <;> omega

/-- A prefix-operator step pops once and pushes once: depth unchanged. -/
theorem executeMinusOperator_ok {s : VMState} {s1 : VMState}
    (h : executeMinusOperator s = .ok s1) :
    s1.frames = s.frames ∧ s1.framesIndex = s.framesIndex ∧
      s1.sp = s.sp ∧ 1 ≤ s1.sp ∧ s1.sp ≤ 2048 := by
  unfold executeMinusOperator at h
  rw [Res.bind_eq_ok] at h
  obtain ⟨p, hp, h⟩ := h
  obtain ⟨h1, h2, rfl⟩ := pop_ok hp
  simp only at h
  have hpush : ∃ v, push { s with sp := s.sp - 1 } v = .ok s1 := by
    split at h
    · exact ⟨_, h⟩
    · cases h
    · cases h
  obtain ⟨v, hpu⟩ := hpush
  obtain ⟨hp0, hp1, rfl⟩ := push_ok hpu
  refine ⟨rfl, rfl, ?_, ?_, ?_⟩ <;> simp <;> omega

theorem executeBangOperator_ok {s : VMState} {s1 : VMState}
    (h : executeBangOperator s = .ok s1) :
    s1.frames = s.frames ∧ s1.framesIndex = s.framesIndex ∧
      s1.sp = s.sp ∧ 1 ≤ s1.sp ∧ s1.sp ≤ 2048 := by
  unfold executeBangOperator at h
  rw [Res.bind_eq_ok] at h
  obtain ⟨p, hp, h⟩ := h
  obtain ⟨h1, h2, rfl⟩ := pop_ok hp
  simp only at h
  have hpush : ∃ v, push { s with sp := s.sp - 1 } v = .ok s1 := by
    split at h <;> exact ⟨_, h⟩
  obtain ⟨v, hpu⟩ := hpush
  obtain ⟨hp0, hp1, rfl⟩ := push_ok hpu
  refine ⟨rfl, rfl, ?_, ?_, ?_⟩ <;> simp <;> omega

theorem executeArrayIndex_ok {s : VMState} {es : List (Option Obj)} {i : Int}
    {s1 : VMState} (h : executeArrayIndex s es i = .ok s1) :
    ∃ v, push s v = .ok s1 := by
  unfold executeArrayIndex at h
  split_ifs at h <;> exact ⟨_, h⟩

theorem executeHashMapIndex_ok {s : VMState}
    {ps : List (HashKey × Obj × Option Obj)} {idx : Option Obj} {s1 : VMState}
    (h : executeHashMapIndex s ps idx = .ok s1) :
    ∃ v, push s v = .ok s1 := by
  unfold executeHashMapIndex at h
  split at h
  · cases h
  · split at h
    · cases h
    · split at h
      · exact ⟨_, h⟩
      · exact ⟨_, h⟩

theorem executeIndexExpression_ok {s : VMState} {left index : Option Obj}
    {s1 : VMState} (h : executeIndexExpression s left index = .ok s1) :
    ∃ v, push s v = .ok s1 := by
  unfold executeIndexExpression at h
  split at h
  · cases h
  · split at h <;>
      first
        | cases h
        | exact executeArrayIndex_ok h
        | exact executeHashMapIndex_ok h

/-- A successful `OpCall` either entered a closure (frame pushed, locals
reserved with no upper stack bound) or ran a built-in (frames untouched,
depth within bounds). -/
theorem executeCall_ok {s : VMState} {n : Nat} {s1 : VMState}
    (h : executeCall s n = .ok s1) :
    (∃ fn : CompiledFunction,
        0 ≤ s.framesIndex ∧ s.framesIndex < 1024 ∧ 1 ≤ s.sp - n ∧
        s1 = { s with
                frames := updFn s.frames s.framesIndex.toNat (some (NewFrame fn (s.sp - n))),
                framesIndex := s.framesIndex + 1,
                sp := s.sp - n + fn.numLocals }) ∨
    (s1.frames = s.frames ∧ s1.framesIndex = s.framesIndex ∧
        1 ≤ s1.sp ∧ s1.sp ≤ 2048) := by
  unfold executeCall at h
  rw [Res.bind_eq_ok] at h
  obtain ⟨callee, hrd, h⟩ := h
  obtain ⟨hc0, hc1, hcv⟩ := readStack_ok hrd
  split at h
  · -- closure
    rename_i fn
    left
    unfold callClosure at h
    split at h
    · cases h
    · rw [Res.bind_eq_ok] at h
      obtain ⟨s2, hpf, h⟩ := h
      obtain ⟨hf0, hf1, rfl⟩ := pushFrame_ok hpf
      cases h
      exact ⟨fn, hf0, hf1, by omega, rfl⟩
  · -- builtin
    rename_i i
    right
    unfold callBuiltIn at h
    split at h
    · rename_i hguard
      rw [Res.bind_eq_ok] at h
      obtain ⟨args, hargs, h⟩ := h
      split at h
      · cases h
      · split at h
        all_goals
          simp only [pushDropErr] at h
          split at h
          all_goals rename_i hp
          · cases h
            obtain ⟨hp0, hp1, rfl⟩ := push_ok hp
            have e1 : (0:Int) ≤ s.sp - ↑n - 1 := hp0
            have e2 : s.sp - ↑n - 1 < 2048 := hp1
            exact ⟨rfl, rfl, by simp; omega, by simp; omega⟩
          · obtain ⟨hm, hsp⟩ := push_err hp
            have e2 : s.sp ≤ 2048 := hguard.2
            have e3 : (2048:Int) ≤ s.sp - ↑n - 1 := hsp
            omega
          · cases h
    · cases h
  · cases h

/-- The conjunction preserved by every successful loop iteration:
non-negative stack depth; depth at most 2048 except immediately after a
closure `OpCall`; the main frame's zero base pointer and a frame index in
`[1, 1024]`. -/
def StepInv (s s1 : VMState) : Prop :=
  (0 ≤ s.sp → 0 ≤ s1.sp) ∧
  (0 ≤ s.sp → s.sp ≤ 2048 → (s1.sp ≤ 2048 ∨ fetchedOp s = some Op.call)) ∧
  (main0 s → main0 s1 ∧ 1 ≤ s1.framesIndex) ∧
  s1.framesIndex ≤ 1024

theorem main0_frames_eq {s t : VMState} (h : t.frames = s.frames)
    (hm : main0 s) : main0 t := by
  intro g hg
  rw [h] at hg
  exact hm g hg

theorem stepInv_of_preserving {s s1 : VMState}
    (h1le : 1 ≤ s.framesIndex) (hle : s.framesIndex ≤ 1024)
    (hfi : s1.framesIndex = s.framesIndex)
    (hm01 : main0 s → main0 s1)
    (hsp0 : 0 ≤ s.sp → 0 ≤ s1.sp)
    (hsp1 : 0 ≤ s.sp → s.sp ≤ 2048 → s1.sp ≤ 2048) : StepInv s s1 :=
  ⟨hsp0, fun a b => Or.inl (hsp1 a b), fun hm => ⟨hm01 hm, by omega⟩, by omega⟩

theorem fetchedOp_eq {s : VMState} {fr : Frame} {b : Nat}
    (hcf : currentFrame s = .ok fr)
    (hb : readByte fr.fn.instructions (fr.ip + 1) = .ok b) :
    fetchedOp s = decode b := by
  unfold fetchedOp
  rw [hcf]
  show (match readByte fr.fn.instructions (fr.ip + 1) with
        | .ok b => decode b | _ => none) = decode b
  rw [hb]

/-- The master preservation lemma: every loop iteration that reaches a new
instruction boundary preserves the frame/stack invariants, except that a
closure `OpCall` may leave `sp` above 2048. -/
theorem step_running_inv {s s1 : VMState} (h : step s = .running s1) :
    StepInv s s1 := by
  unfold step at h
  cases hsc : stepCore s with
  | ok a =>
    rw [hsc] at h
    cases a with
    | none => cases h
    | some t =>
      rw [mkRun_ok_some] at h
      cases h
      unfold stepCore at hsc
      rw [Res.bind_eq_ok] at hsc
      obtain ⟨fr, hcf, hsc⟩ := hsc
      obtain ⟨h1le, hle1024, hfr0⟩ := currentFrame_ok hcf
      split at hsc
      · rw [Res.bind_eq_ok] at hsc
        obtain ⟨s1, hfe, heq⟩ := hsc
        cases heq
        simp only [fetchExec] at hfe
        rw [Res.bind_eq_ok] at hfe
        obtain ⟨fr', hcf', hfe⟩ := hfe
        rw [hcf] at hcf'
        cases hcf'
        rw [Res.bind_eq_ok] at hfe
        obtain ⟨b, hbyte, hfe⟩ := hfe
        cases hdec : decode b with
        | none => rw [hdec] at hfe; cases hfe
        | some op =>
          rw [hdec] at hfe
          have hfop : fetchedOp s = some op := by
            rw [fetchedOp_eq hcf hbyte, hdec]
          have hcf2 : currentFrame (setCurrentFrame s { fr with ip := fr.ip + 1 }) =
              .ok { fr with ip := fr.ip + 1 } :=
            currentFrame_setCurrentFrame _ hcf
          have hm2 : main0 s → main0 (setCurrentFrame s { fr with ip := fr.ip + 1 }) :=
            fun hm => main0_setCurrentFrame hm hcf rfl
          cases op with
          | const =>
            simp only [execOp] at hfe
            rw [Res.bind_eq_ok] at hfe
            obtain ⟨idx, hu, hfe⟩ := hfe
            rw [Res.bind_eq_ok] at hfe
            obtain ⟨s3, hadv, hfe⟩ := hfe
            rw [Res.bind_eq_ok] at hfe
            obtain ⟨c, hrc, hp⟩ := hfe
            obtain ⟨fr2, hcf2', rfl⟩ := advanceIp_ok hadv
            obtain ⟨hp0, hp1, rfl⟩ := push_ok hp
            have e0 : (0:Int) ≤ s.sp := hp0
            have e1 : s.sp < 2048 := hp1
            exact stepInv_of_preserving h1le hle1024 rfl
              (fun hm => main0_frames_eq rfl
                (main0_setCurrentFrame (hm2 hm) hcf2' rfl))
              (fun _ => by show (0:Int) ≤ s.sp + 1; omega)
              (fun _ _ => by show s.sp + 1 ≤ 2048; omega)
          | tru =>
            simp only [execOp] at hfe
            obtain ⟨hp0, hp1, rfl⟩ := push_ok hfe
            have e0 : (0:Int) ≤ s.sp := hp0
            have e1 : s.sp < 2048 := hp1
            exact stepInv_of_preserving h1le hle1024 rfl
              (fun hm => main0_frames_eq rfl (hm2 hm))
              (fun _ => by show (0:Int) ≤ s.sp + 1; omega)
              (fun _ _ => by show s.sp + 1 ≤ 2048; omega)
          | fls =>
            simp only [execOp] at hfe
            obtain ⟨hp0, hp1, rfl⟩ := push_ok hfe
            have e0 : (0:Int) ≤ s.sp := hp0
            have e1 : s.sp < 2048 := hp1
            exact stepInv_of_preserving h1le hle1024 rfl
              (fun hm => main0_frames_eq rfl (hm2 hm))
              (fun _ => by show (0:Int) ≤ s.sp + 1; omega)
              (fun _ _ => by show s.sp + 1 ≤ 2048; omega)
          | nul =>
            simp only [execOp] at hfe
            obtain ⟨hp0, hp1, rfl⟩ := push_ok hfe
            have e0 : (0:Int) ≤ s.sp := hp0
            have e1 : s.sp < 2048 := hp1
            exact stepInv_of_preserving h1le hle1024 rfl
              (fun hm => main0_frames_eq rfl (hm2 hm))
              (fun _ => by show (0:Int) ≤ s.sp + 1; omega)
              (fun _ _ => by show s.sp + 1 ≤ 2048; omega)
          | pop =>
            simp only [execOp] at hfe
            rw [Res.bind_eq_ok] at hfe
            obtain ⟨p, hp, heq⟩ := hfe
            obtain ⟨ha, hb2, rfl⟩ := pop_ok hp
            cases heq
            have ha' : (1:Int) ≤ s.sp := ha
            exact stepInv_of_preserving h1le hle1024 rfl
              (fun hm => main0_frames_eq rfl (hm2 hm))
              (fun _ => by show (0:Int) ≤ s.sp - 1; omega)
              (fun _ hb3 => by show s.sp - 1 ≤ 2048; omega)
          | jump =>
            simp only [execOp] at hfe
            rw [Res.bind_eq_ok] at hfe
            obtain ⟨pos, hu, hfe⟩ := hfe
            obtain ⟨fr2, hcf2', rfl⟩ := setIp_ok hfe
            exact stepInv_of_preserving h1le hle1024 rfl
              (fun hm => main0_setCurrentFrame (hm2 hm) hcf2' rfl)
              (fun a => a) (fun _ b => b)
          | jumpNotTruthy =>
            simp only [execOp] at hfe
            rw [Res.bind_eq_ok] at hfe
            obtain ⟨pos, hu, hfe⟩ := hfe
            rw [Res.bind_eq_ok] at hfe
            obtain ⟨s3, hadv, hfe⟩ := hfe
            obtain ⟨fr2, hcf2', rfl⟩ := advanceIp_ok hadv
            rw [Res.bind_eq_ok] at hfe
            obtain ⟨p, hp, hfe⟩ := hfe
            obtain ⟨ha, hb2, rfl⟩ := pop_ok hp
            have ha' : (1:Int) ≤ s.sp := ha
            have hb2' : s.sp ≤ 2048 := hb2
            have hm3 : main0 s →
                main0 (setCurrentFrame (setCurrentFrame s { fr with ip := fr.ip + 1 })
                  { fr2 with ip := fr2.ip + 2 }) :=
              fun hm => main0_setCurrentFrame (hm2 hm) hcf2' rfl
            split at hfe
            · cases hfe
              exact stepInv_of_preserving h1le hle1024 rfl
                (fun hm => main0_frames_eq rfl (hm3 hm))
                (fun _ => by show (0:Int) ≤ s.sp - 1; omega)
                (fun _ _ => by show s.sp - 1 ≤ 2048; omega)
            · obtain ⟨fr3, hcf3, rfl⟩ := setIp_ok hfe
              exact stepInv_of_preserving h1le hle1024 rfl
                (fun hm => main0_setCurrentFrame
                  (main0_frames_eq rfl (hm3 hm)) hcf3 rfl)
                (fun _ => by show (0:Int) ≤ s.sp - 1; omega)
                (fun _ _ => by show s.sp - 1 ≤ 2048; omega)
          | add =>
            simp only [execOp] at hfe
            obtain ⟨e3, e4, e5, e6, e7⟩ := executeBinaryOperation_ok hfe
            exact stepInv_of_preserving h1le hle1024 e4
              (fun hm => main0_frames_eq e3 (hm2 hm))
              (fun _ => by omega) (fun _ _ => by omega)
          | sub =>
            simp only [execOp] at hfe
            obtain ⟨e3, e4, e5, e6, e7⟩ := executeBinaryOperation_ok hfe
            exact stepInv_of_preserving h1le hle1024 e4
              (fun hm => main0_frames_eq e3 (hm2 hm))
              (fun _ => by omega) (fun _ _ => by omega)
          | mul =>
            simp only [execOp] at hfe
            obtain ⟨e3, e4, e5, e6, e7⟩ := executeBinaryOperation_ok hfe
            exact stepInv_of_preserving h1le hle1024 e4
              (fun hm => main0_frames_eq e3 (hm2 hm))
              (fun _ => by omega) (fun _ _ => by omega)
          | div =>
            simp only [execOp] at hfe
            obtain ⟨e3, e4, e5, e6, e7⟩ := executeBinaryOperation_ok hfe
            exact stepInv_of_preserving h1le hle1024 e4
              (fun hm => main0_frames_eq e3 (hm2 hm))
              (fun _ => by omega) (fun _ _ => by omega)
          | eq =>
            simp only [execOp] at hfe
            obtain ⟨e3, e4, e5, e6, e7⟩ := executeComparison_ok hfe
            exact stepInv_of_preserving h1le hle1024 e4
              (fun hm => main0_frames_eq e3 (hm2 hm))
              (fun _ => by omega) (fun _ _ => by omega)
          | neq =>
            simp only [execOp] at hfe
            obtain ⟨e3, e4, e5, e6, e7⟩ := executeComparison_ok hfe
            exact stepInv_of_preserving h1le hle1024 e4
              (fun hm => main0_frames_eq e3 (hm2 hm))
              (fun _ => by omega) (fun _ _ => by omega)
          | gt =>
            simp only [execOp] at hfe
            obtain ⟨e3, e4, e5, e6, e7⟩ := executeComparison_ok hfe
            exact stepInv_of_preserving h1le hle1024 e4
              (fun hm => main0_frames_eq e3 (hm2 hm))
              (fun _ => by omega) (fun _ _ => by omega)
          | minus =>
            simp only [execOp] at hfe
            obtain ⟨e3, e4, e5, e6, e7⟩ := executeMinusOperator_ok hfe
            exact stepInv_of_preserving h1le hle1024 e4
              (fun hm => main0_frames_eq e3 (hm2 hm))
              (fun _ => by omega) (fun _ _ => by omega)
          | bang =>
            simp only [execOp] at hfe
            obtain ⟨e3, e4, e5, e6, e7⟩ := executeBangOperator_ok hfe
            exact stepInv_of_preserving h1le hle1024 e4
              (fun hm => main0_frames_eq e3 (hm2 hm))
              (fun _ => by omega) (fun _ _ => by omega)
          | getGlobal =>
            simp only [execOp] at hfe
            rw [Res.bind_eq_ok] at hfe
            obtain ⟨idx, hu, hfe⟩ := hfe
            rw [Res.bind_eq_ok] at hfe
            obtain ⟨s3, hadv, hfe⟩ := hfe
            rw [Res.bind_eq_ok] at hfe
            obtain ⟨v, hg, hp⟩ := hfe
            obtain ⟨fr2, hcf2', rfl⟩ := advanceIp_ok hadv
            obtain ⟨hp0, hp1, rfl⟩ := push_ok hp
            have e0 : (0:Int) ≤ s.sp := hp0
            have e1 : s.sp < 2048 := hp1
            exact stepInv_of_preserving h1le hle1024 rfl
              (fun hm => main0_frames_eq rfl
                (main0_setCurrentFrame (hm2 hm) hcf2' rfl))
              (fun _ => by show (0:Int) ≤ s.sp + 1; omega)
              (fun _ _ => by show s.sp + 1 ≤ 2048; omega)
          | setGlobal =>
            simp only [execOp] at hfe
            rw [Res.bind_eq_ok] at hfe
            obtain ⟨idx, hu, hfe⟩ := hfe
            rw [Res.bind_eq_ok] at hfe
            obtain ⟨s3, hadv, hfe⟩ := hfe
            rw [Res.bind_eq_ok] at hfe
            obtain ⟨p, hp, hw⟩ := hfe
            obtain ⟨fr2, hcf2', rfl⟩ := advanceIp_ok hadv
            obtain ⟨ha, hb2, rfl⟩ := pop_ok hp
            have ha' : (1:Int) ≤ s.sp := ha
            have hb2' : s.sp ≤ 2048 := hb2
            have hw' := writeGlobal_ok hw
            subst hw'
            exact stepInv_of_preserving h1le hle1024 rfl
              (fun hm => main0_frames_eq rfl
                (main0_setCurrentFrame (hm2 hm) hcf2' rfl))
              (fun _ => by show (0:Int) ≤ s.sp - 1; omega)
              (fun _ _ => by show s.sp - 1 ≤ 2048; omega)
          | getLocal =>
            simp only [execOp] at hfe
            rw [Res.bind_eq_ok] at hfe
            obtain ⟨idx, hu, hfe⟩ := hfe
            rw [Res.bind_eq_ok] at hfe
            obtain ⟨s3, hadv, hfe⟩ := hfe
            rw [Res.bind_eq_ok] at hfe
            obtain ⟨fr3, hcf3, hfe⟩ := hfe
            rw [Res.bind_eq_ok] at hfe
            obtain ⟨v, hv, hp⟩ := hfe
            obtain ⟨fr2, hcf2', rfl⟩ := advanceIp_ok hadv
            obtain ⟨hp0, hp1, rfl⟩ := push_ok hp
            have e0 : (0:Int) ≤ s.sp := hp0
            have e1 : s.sp < 2048 := hp1
            exact stepInv_of_preserving h1le hle1024 rfl
              (fun hm => main0_frames_eq rfl
                (main0_setCurrentFrame (hm2 hm) hcf2' rfl))
              (fun _ => by show (0:Int) ≤ s.sp + 1; omega)
              (fun _ _ => by show s.sp + 1 ≤ 2048; omega)
          | setLocal =>
            simp only [execOp] at hfe
            rw [Res.bind_eq_ok] at hfe
            obtain ⟨idx, hu, hfe⟩ := hfe
            rw [Res.bind_eq_ok] at hfe
            obtain ⟨s3, hadv, hfe⟩ := hfe
            rw [Res.bind_eq_ok] at hfe
            obtain ⟨fr3, hcf3, hfe⟩ := hfe
            rw [Res.bind_eq_ok] at hfe
            obtain ⟨p, hp, hw⟩ := hfe
            obtain ⟨fr2, hcf2', rfl⟩ := advanceIp_ok hadv
            obtain ⟨ha, hb2, rfl⟩ := pop_ok hp
            have ha' : (1:Int) ≤ s.sp := ha
            have hb2' : s.sp ≤ 2048 := hb2
            obtain ⟨hw0, hw1, rfl⟩ := writeStack_ok hw
            exact stepInv_of_preserving h1le hle1024 rfl
              (fun hm => main0_frames_eq rfl
                (main0_setCurrentFrame (hm2 hm) hcf2' rfl))
              (fun _ => by show (0:Int) ≤ s.sp - 1; omega)
              (fun _ _ => by show s.sp - 1 ≤ 2048; omega)
          | array =>
            simp only [execOp] at hfe
            rw [Res.bind_eq_ok] at hfe
            obtain ⟨n, hu, hfe⟩ := hfe
            rw [Res.bind_eq_ok] at hfe
            obtain ⟨s3, hadv, hfe⟩ := hfe
            rw [Res.bind_eq_ok] at hfe
            obtain ⟨arr, hba, hp⟩ := hfe
            obtain ⟨fr2, hcf2', rfl⟩ := advanceIp_ok hadv
            obtain ⟨hp0, hp1, rfl⟩ := push_ok hp
            have e0 : (0:Int) ≤ s.sp - n := hp0
            have e1 : s.sp - n < 2048 := hp1
            exact stepInv_of_preserving h1le hle1024 rfl
              (fun hm => main0_frames_eq rfl
                (main0_setCurrentFrame (hm2 hm) hcf2' rfl))
              (fun _ => by show (0:Int) ≤ s.sp - n + 1; omega)
              (fun _ _ => by show s.sp - n + 1 ≤ 2048; omega)
          | hashMap =>
            simp only [execOp] at hfe
            rw [Res.bind_eq_ok] at hfe
            obtain ⟨n, hu, hfe⟩ := hfe
            rw [Res.bind_eq_ok] at hfe
            obtain ⟨s3, hadv, hfe⟩ := hfe
            rw [Res.bind_eq_ok] at hfe
            obtain ⟨hm', hbh, hp⟩ := hfe
            obtain ⟨fr2, hcf2', rfl⟩ := advanceIp_ok hadv
            obtain ⟨hp0, hp1, rfl⟩ := push_ok hp
            have e0 : (0:Int) ≤ s.sp - n := hp0
            have e1 : s.sp - n < 2048 := hp1
            exact stepInv_of_preserving h1le hle1024 rfl
              (fun hm => main0_frames_eq rfl
                (main0_setCurrentFrame (hm2 hm) hcf2' rfl))
              (fun _ => by show (0:Int) ≤ s.sp - n + 1; omega)
              (fun _ _ => by show s.sp - n + 1 ≤ 2048; omega)
          | index =>
            simp only [execOp] at hfe
            rw [Res.bind_eq_ok] at hfe
            obtain ⟨pIdx, hp1', hfe⟩ := hfe
            rw [Res.bind_eq_ok] at hfe
            obtain ⟨pLeft, hp2', hfe⟩ := hfe
            obtain ⟨ha1, hb1, rfl⟩ := pop_ok hp1'
            obtain ⟨ha2, hb2, rfl⟩ := pop_ok hp2'
            simp only at hfe ha2 hb2
            obtain ⟨v, hp⟩ := executeIndexExpression_ok hfe
            obtain ⟨hp0, hp1, rfl⟩ := push_ok hp
            have e0 : (0:Int) ≤ s.sp - 1 - 1 := hp0
            have e1 : s.sp - 1 - 1 < 2048 := hp1
            exact stepInv_of_preserving h1le hle1024 rfl
              (fun hm => main0_frames_eq rfl (hm2 hm))
              (fun _ => by show (0:Int) ≤ s.sp - 1 - 1 + 1; omega)
              (fun _ _ => by show s.sp - 1 - 1 + 1 ≤ 2048; omega)
          | call =>
            simp only [execOp] at hfe
            rw [Res.bind_eq_ok] at hfe
            obtain ⟨n, hu, hfe⟩ := hfe
            rw [Res.bind_eq_ok] at hfe
            obtain ⟨s3, hadv, hfe⟩ := hfe
            obtain ⟨fr2, hcf2', hs3⟩ := advanceIp_ok hadv
            have hs3fi : s3.framesIndex = s.framesIndex := by rw [hs3]; rfl
            have hs3sp : s3.sp = s.sp := by rw [hs3]; rfl
            have hm3 : main0 s → main0 s3 := by
              intro hm
              rw [hs3]
              exact main0_setCurrentFrame (hm2 hm) hcf2' rfl
            rcases executeCall_ok hfe with ⟨fn, hf0, hf1, hf2, heq⟩ | ⟨e3, e4, e5, e6⟩
            · rw [hs3fi] at hf1
              rw [hs3sp] at hf2
              have e1 : s1.sp = s.sp - n + fn.numLocals := by
                rw [heq]
                show s3.sp - ↑n + ↑fn.numLocals = _
                rw [hs3sp]
              have e2 : s1.framesIndex = s.framesIndex + 1 := by
                rw [heq]
                show s3.framesIndex + 1 = _
                rw [hs3fi]
              have efr : s1.frames =
                  updFn s3.frames s3.framesIndex.toNat (some (NewFrame fn (s3.sp - n))) := by
                rw [heq]
              refine ⟨fun _ => ?_, fun _ _ => Or.inr hfop, fun hm => ⟨?_, ?_⟩, ?_⟩
              · have hnl : (0:Int) ≤ (fn.numLocals : Int) := Int.ofNat_nonneg _
                omega
              · intro g hg
                rw [efr] at hg
                have h0ne : (0:Nat) ≠ s3.framesIndex.toNat := by
                  rw [hs3fi]
                  omega
                rw [updFn_other _ _ _ _ h0ne] at hg
                exact hm3 hm g hg
              · omega
              · omega
            · exact stepInv_of_preserving h1le hle1024 (by rw [e4, hs3fi])
                (fun hm => main0_frames_eq e3 (hm3 hm))
                (fun _ => by omega) (fun _ _ => by omega)
          | returnValue =>
            simp only [execOp] at hfe
            rw [Res.bind_eq_ok] at hfe
            obtain ⟨p, hp, hfe⟩ := hfe
            rw [Res.bind_eq_ok] at hfe
            obtain ⟨fp, hpf, hfe⟩ := hfe
            obtain ⟨ha, hb2, hpeq⟩ := pop_ok hp
            have ha' : (1:Int) ≤ s.sp := ha
            have hp2fi : p.2.framesIndex = s.framesIndex := by
              rw [hpeq]
              try rfl
            have hp2fr : p.2.frames =
                (setCurrentFrame s { fr with ip := fr.ip + 1 }).frames := by
              rw [hpeq]
              try rfl
            obtain ⟨hq1, hq2, hq3, hq4⟩ := popFrame_ok hpf
            obtain ⟨hp0, hp1, hseq⟩ := push_ok hfe
            have e1 : (0:Int) ≤ fp.1.basePointer - 1 := hp0
            have e2 : fp.1.basePointer - 1 < 2048 := hp1
            have es1sp : s1.sp = fp.1.basePointer - 1 + 1 := by rw [hseq]
            try rfl
            have es1fi : s1.framesIndex = s.framesIndex - 1 := by
              rw [hseq]
              try rfl
              show fp.2.framesIndex = s.framesIndex - 1
              rw [hq4]
              try rfl
              show p.2.framesIndex - 1 = s.framesIndex - 1
              rw [hp2fi]
            have es1fr : s1.frames =
                (setCurrentFrame s { fr with ip := fr.ip + 1 }).frames := by
              rw [hseq]
              try rfl
              show fp.2.frames = _
              rw [hq4]
              try rfl
              show p.2.frames = _
              exact hp2fr
            refine ⟨fun _ => ?_, fun _ _ => Or.inl ?_, fun hm => ⟨?_, ?_⟩, ?_⟩
            · omega
            · omega
            · exact main0_frames_eq es1fr (hm2 hm)
            · rw [es1fi]
              by_cases hone : s.framesIndex = 1
              · exfalso
                have hz : (p.2.framesIndex - 1).toNat = 0 := by
                  rw [hp2fi]
                  omega
                rw [hz, hp2fr] at hq3
                have hbp := (hm2 hm) fp.1 hq3
                omega
              · omega
            · omega
          | ret =>
            simp only [execOp] at hfe
            rw [Res.bind_eq_ok] at hfe
            obtain ⟨fp, hpf, hfe⟩ := hfe
            obtain ⟨hq1, hq2, hq3, hq4⟩ := popFrame_ok hpf
            obtain ⟨hp0, hp1, hseq⟩ := push_ok hfe
            have hq1' : (1:Int) ≤ s.framesIndex := hq1
            have hq2' : s.framesIndex ≤ 1024 := hq2
            have e1 : (0:Int) ≤ fp.1.basePointer - 1 := hp0
            have e2 : fp.1.basePointer - 1 < 2048 := hp1
            have es1sp : s1.sp = fp.1.basePointer - 1 + 1 := by rw [hseq]
            try rfl
            have es1fi : s1.framesIndex = s.framesIndex - 1 := by
              rw [hseq]
              try rfl
              show fp.2.framesIndex = s.framesIndex - 1
              rw [hq4]
              try rfl
            have es1fr : s1.frames =
                (setCurrentFrame s { fr with ip := fr.ip + 1 }).frames := by
              rw [hseq]
              try rfl
              show fp.2.frames = _
              rw [hq4]
              try rfl
            refine ⟨fun _ => ?_, fun _ _ => Or.inl ?_, fun hm => ⟨?_, ?_⟩, ?_⟩
            · omega
            · omega
            · exact main0_frames_eq es1fr (hm2 hm)
            · rw [es1fi]
              by_cases hone : s.framesIndex = 1
              · exfalso
                have hz : ((setCurrentFrame s { fr with ip := fr.ip + 1 }).framesIndex
                    - 1).toNat = 0 := by
                  show (s.framesIndex - 1).toNat = 0
                  omega
                rw [hz] at hq3
                have hbp := (hm2 hm) fp.1 hq3
                omega
              · omega
            · omega
          | getBuiltIn =>
            simp only [execOp] at hfe
            rw [Res.bind_eq_ok] at hfe
            obtain ⟨idx, hu, hfe⟩ := hfe
            rw [Res.bind_eq_ok] at hfe
            obtain ⟨s3, hadv, hfe⟩ := hfe
            obtain ⟨fr2, hcf2', rfl⟩ := advanceIp_ok hadv
            split at hfe
            · obtain ⟨hp0, hp1, rfl⟩ := push_ok hfe
              have e0 : (0:Int) ≤ s.sp := hp0
              have e1 : s.sp < 2048 := hp1
              exact stepInv_of_preserving h1le hle1024 rfl
                (fun hm => main0_frames_eq rfl
                  (main0_setCurrentFrame (hm2 hm) hcf2' rfl))
                (fun _ => by show (0:Int) ≤ s.sp + 1; omega)
                (fun _ _ => by show s.sp + 1 ≤ 2048; omega)
            · cases hfe
          | closure =>
            simp only [execOp] at hfe
            rw [Res.bind_eq_ok] at hfe
            obtain ⟨idx, hu, hfe⟩ := hfe
            rw [Res.bind_eq_ok] at hfe
            obtain ⟨s3, hadv, hfe⟩ := hfe
            obtain ⟨fr2, hcf2', rfl⟩ := advanceIp_ok hadv
            unfold pushClosure at hfe
            rw [Res.bind_eq_ok] at hfe
            obtain ⟨c, hrc, hfe⟩ := hfe
            split at hfe
            · obtain ⟨hp0, hp1, rfl⟩ := push_ok hfe
              have e0 : (0:Int) ≤ s.sp := hp0
              have e1 : s.sp < 2048 := hp1
              exact stepInv_of_preserving h1le hle1024 rfl
                (fun hm => main0_frames_eq rfl
                  (main0_setCurrentFrame (hm2 hm) hcf2' rfl))
                (fun _ => by show (0:Int) ≤ s.sp + 1; omega)
                (fun _ _ => by show s.sp + 1 ≤ 2048; omega)
            · cases hfe
      · cases hsc
  | err m => rw [hsc] at h; cases h
  | crash => rw [hsc] at h; cases h

/-- Peel a leading iteration off `stepIter`. -/
theorem stepIter_step {n : Nat} {s s1 : VMState} (h : step s = .running s1) :
    stepIter (n + 1) s = stepIter n s1 := by
  show (match step s with | RunRes.running t => stepIter n t | r => r) = _
  rw [h]

/-- `stepIter (n+1)` is `step` applied to a `running` `n`-th result. -/
theorem stepIter_succ_run {n : Nat} {s0 t : VMState}
    (hni : stepIter n s0 = .running t) : stepIter (n + 1) s0 = step t := by
  rw [stepIter_succ_end, hni]

/-- Every instruction boundary of every run satisfies the stack and frame
invariants (for the frame bound, not even the `OpCall` caveat applies). -/
theorem reachable_inv {instrs : List Nat} {consts : List Obj}
    {bs : List BuiltinImpl} {s : VMState}
    (h : Reachable instrs consts bs s) :
    0 ≤ s.sp ∧ 1 ≤ s.framesIndex ∧ s.framesIndex ≤ 1024 ∧ main0 s := by
  obtain ⟨n, hn⟩ := h
  induction n generalizing s with
  | zero =>
    have h0 : RunRes.running (initialVM instrs consts bs) = .running s := hn
    cases h0
    refine ⟨le_refl _, le_refl _, by show (1:Int) ≤ 1024; norm_num, ?_⟩
    intro g hg
    have hg' : some (NewFrame ⟨instrs, 0, 0⟩ 0) = some g := by
      rw [← hg]
      rfl
    cases hg'
    rfl
  | succ n ih =>
    cases hni : stepIter n (initialVM instrs consts bs) with
    | running t =>
      rw [stepIter_succ_run hni] at hn
      obtain ⟨i1, i2, i3, i4⟩ := ih hni
      obtain ⟨j1, j2, j3, j4⟩ := step_running_inv hn
      exact ⟨j1 i1, (j3 i4).2, j4, (j3 i4).1⟩
    | halted t => rw [stepIter_succ_end, hni] at hn; cases hn
    | errored m => rw [stepIter_succ_end, hni] at hn; cases hn
    | crashed => rw [stepIter_succ_end, hni] at hn; cases hn

/-- The body of the self-calling closure. -/
def recBody : List Nat := [opGetGlobal, 0, 0, opCall, 0]

def recFn : CompiledFunction := ⟨recBody, 0, 0⟩

def recMain : List Nat :=
  [opClosure, 0, 0, 0, opSetGlobal, 0, 0, opGetGlobal, 0, 0, opCall, 0]

def recConsts : List Obj := [.compiledFnObj recFn]

def recInit : VMState := initialVM recMain recConsts []

def mainFrame11 : Frame := ⟨⟨recMain, 0, 0⟩, 11, 0⟩

def stateA (k : Nat) : VMState :=
  { constants := recConsts
    builtins := []
    stack := fun j => if j + 1 < k then some (.closureObj recFn) else none
    sp := (k : Int) - 1
    globals := updFn (fun _ => none) 0 (some (.closureObj recFn))
    frames := fun j =>
      if j = 0 then some mainFrame11
      else if j + 1 < k then some ⟨recFn, 4, (j : Int)⟩
      else if j + 1 = k then some ⟨recFn, -1, (k : Int) - 1⟩
      else none
    framesIndex := (k : Int) }

def stateB (k : Nat) : VMState :=
  { constants := recConsts
    builtins := []
    stack := fun j => if j < k then some (.closureObj recFn) else none
    sp := (k : Int)
    globals := updFn (fun _ => none) 0 (some (.closureObj recFn))
    frames := fun j =>
      if j = 0 then some mainFrame11
      else if j + 1 < k then some ⟨recFn, 4, (j : Int)⟩
      else if j + 1 = k then some ⟨recFn, 2, (k : Int) - 1⟩
      else none
    framesIndex := (k : Int) }

theorem stateA_frames_top {k : Nat} (h2 : 2 ≤ k) :
    (stateA k).frames (k - 1) = some ⟨recFn, -1, (k : Int) - 1⟩ := by
  show (if k - 1 = 0 then some mainFrame11
    else if (k - 1) + 1 < k then some ⟨recFn, 4, ((k - 1 : Nat) : Int)⟩
    else if (k - 1) + 1 = k then some ⟨recFn, -1, (k : Int) - 1⟩
    else none) = _
  rw [if_neg (by omega), if_neg (by omega), if_pos (by omega)]

theorem currentFrame_stateA {k : Nat} (h2 : 2 ≤ k) (hk : k ≤ 1024) :
    currentFrame (stateA k) = .ok ⟨recFn, -1, (k : Int) - 1⟩ := by
  unfold currentFrame
  rw [if_pos (show (0:Int) ≤ (stateA k).framesIndex - 1 ∧
      (stateA k).framesIndex - 1 < (MaxFrames:Int) from
    ⟨by show (0:Int) ≤ (k:Int) - 1; omega,
     by show (k:Int) - 1 < (MaxFrames:Int); rw [maxFrames_int]; omega⟩)]
  rw [show ((stateA k).framesIndex - 1).toNat = k - 1 from by
    show ((k:Int) - 1).toNat = k - 1
    omega]
  rw [stateA_frames_top h2]

theorem VMState.extEq {s t : VMState}
    (h1 : s.constants = t.constants) (h2 : s.builtins = t.builtins)
    (h3 : ∀ j, s.stack j = t.stack j) (h4 : s.sp = t.sp)
    (h5 : ∀ j, s.globals j = t.globals j) (h6 : ∀ j, s.frames j = t.frames j)
    (h7 : s.framesIndex = t.framesIndex) : s = t := by
  cases s
  cases t
  simp only at h1 h2 h3 h4 h5 h6 h7
  simp only [VMState.mk.injEq]
  exact ⟨h1, h2, funext h3, h4, funext h5, funext h6, h7⟩

theorem fetchExec_stateA {k : Nat} (h2 : 2 ≤ k) (hk : k ≤ 1024) :
    fetchExec (stateA k) = .ok (stateB k) := by
  have hcf := currentFrame_stateA h2 hk
  simp only [fetchExec]
  rw [hcf]
  simp only [Res.bind_ok]
  show (Res.ok 16).bind (fun b =>
    match decode b with
    | none => Res.err ("invalid opcode received: " ++ toString b)
    | some op => execOp (setCurrentFrame (stateA k) ⟨recFn, 0, (k:Int) - 1⟩)
        recBody 0 op) = .ok (stateB k)
  simp only [Res.bind_ok]
  show execOp (setCurrentFrame (stateA k) ⟨recFn, 0, (k:Int) - 1⟩)
      recBody 0 Op.getGlobal = .ok (stateB k)
  simp only [execOp]
  rw [show readU16 recBody (0 + 1) = Res.ok 0 from rfl]
  simp only [Res.bind_ok]
  have hcf1 : currentFrame (setCurrentFrame (stateA k) ⟨recFn, 0, (k:Int) - 1⟩) =
      .ok ⟨recFn, 0, (k:Int) - 1⟩ := currentFrame_setCurrentFrame _ hcf
  rw [show advanceIp (setCurrentFrame (stateA k) ⟨recFn, 0, (k:Int) - 1⟩) 2 =
      Res.ok (setCurrentFrame (setCurrentFrame (stateA k) ⟨recFn, 0, (k:Int) - 1⟩)
        ⟨recFn, 2, (k:Int) - 1⟩) from by
    unfold advanceIp
    rw [hcf1]
    rfl]
  simp only [Res.bind_ok]
  rw [show readGlobal (setCurrentFrame (setCurrentFrame (stateA k)
      ⟨recFn, 0, (k:Int) - 1⟩) ⟨recFn, 2, (k:Int) - 1⟩) 0 =
      Res.ok (some (Obj.closureObj recFn)) from by
    unfold readGlobal
    rw [if_pos (by norm_num [GlobalsSize])]
    rfl]
  simp only [Res.bind_ok]
  unfold push
  rw [if_neg (show ¬ ((StackSize:Int) ≤
      (setCurrentFrame (setCurrentFrame (stateA k) ⟨recFn, 0, (k:Int) - 1⟩)
        ⟨recFn, 2, (k:Int) - 1⟩).sp) from by
    show ¬ ((StackSize:Int) ≤ (k:Int) - 1)
    rw [stackSize_int]
    omega)]
  unfold writeStack
  rw [if_pos (show
      (0:Int) ≤ (setCurrentFrame (setCurrentFrame (stateA k) ⟨recFn, 0, (k:Int) - 1⟩)
        ⟨recFn, 2, (k:Int) - 1⟩).sp ∧
      (setCurrentFrame (setCurrentFrame (stateA k) ⟨recFn, 0, (k:Int) - 1⟩)
        ⟨recFn, 2, (k:Int) - 1⟩).sp < (StackSize:Int) from
    ⟨by show (0:Int) ≤ (k:Int) - 1; omega,
     by show (k:Int) - 1 < (StackSize:Int); rw [stackSize_int]; omega⟩)]
  simp only [Res.bind_ok]
  congr 1
  apply VMState.extEq
  · rfl
  · rfl
  · intro j
    show updFn (stateA k).stack ((k:Int) - 1).toNat (some (Obj.closureObj recFn)) j
      = (stateB k).stack j
    rw [show ((k:Int) - 1).toNat = k - 1 from by omega]
    show (if j = k - 1 then some (Obj.closureObj recFn)
      else if j + 1 < k then some (Obj.closureObj recFn) else none)
      = (if j < k then some (Obj.closureObj recFn) else none)
    split_ifs <;> first | rfl | omega | (exfalso; omega)
  · show ((k:Int) - 1) + 1 = (k:Int)
    omega
  · intro j
    rfl
  · intro j
    show updFn (updFn (stateA k).frames ((k:Int) - 1).toNat
        (some ⟨recFn, 0, (k:Int) - 1⟩)) ((k:Int) - 1).toNat
        (some ⟨recFn, 2, (k:Int) - 1⟩) j = (stateB k).frames j
    rw [show ((k:Int) - 1).toNat = k - 1 from by omega]
    show (if j = k - 1 then some (⟨recFn, 2, (k:Int) - 1⟩ : Frame)
      else if j = k - 1 then some (⟨recFn, 0, (k:Int) - 1⟩ : Frame)
      else if j = 0 then some mainFrame11
      else if j + 1 < k then some (⟨recFn, 4, (j : Int)⟩ : Frame)
      else if j + 1 = k then some (⟨recFn, -1, (k : Int) - 1⟩ : Frame)
      else none)
      = (if j = 0 then some mainFrame11
      else if j + 1 < k then some (⟨recFn, 4, (j : Int)⟩ : Frame)
      else if j + 1 = k then some (⟨recFn, 2, (k : Int) - 1⟩ : Frame)
      else none)
    split_ifs <;> first | rfl | omega | (exfalso; omega)
  · rfl

theorem stepA {k : Nat} (h2 : 2 ≤ k) (hk : k ≤ 1024) :
    step (stateA k) = .running (stateB k) := by
  unfold step
  have hsc : stepCore (stateA k) = .ok (some (stateB k)) := by
    unfold stepCore
    rw [currentFrame_stateA h2 hk]
    simp only [Res.bind_ok]
    rw [if_pos (show ((⟨recFn, -1, (k:Int) - 1⟩ : Frame)).ip <
        ((((⟨recFn, -1, (k:Int) - 1⟩ : Frame)).fn.instructions.length : Int) - 1) from by
      show (-1 : Int) < (5 : Int) - 1
      norm_num)]
    rw [fetchExec_stateA h2 hk]
    rfl
  rw [hsc]
  rfl

theorem optFrame_eq (fn : CompiledFunction) (i : Int) {a b : Int} (h : a = b) :
    some (Frame.mk fn i a) = some (Frame.mk fn i b) := by rw [h]

theorem stateB_frames_top {k : Nat} (h2 : 2 ≤ k) :
    (stateB k).frames (k - 1) = some ⟨recFn, 2, (k : Int) - 1⟩ := by
  show (if k - 1 = 0 then some mainFrame11
    else if (k - 1) + 1 < k then some ⟨recFn, 4, ((k - 1 : Nat) : Int)⟩
    else if (k - 1) + 1 = k then some ⟨recFn, 2, (k : Int) - 1⟩
    else none) = _
  rw [if_neg (by omega), if_neg (by omega), if_pos (by omega)]

theorem currentFrame_stateB {k : Nat} (h2 : 2 ≤ k) (hk : k ≤ 1024) :
    currentFrame (stateB k) = .ok ⟨recFn, 2, (k : Int) - 1⟩ := by
  unfold currentFrame
  rw [if_pos (show (0:Int) ≤ (stateB k).framesIndex - 1 ∧
      (stateB k).framesIndex - 1 < (MaxFrames:Int) from
    ⟨by show (0:Int) ≤ (k:Int) - 1; omega,
     by show (k:Int) - 1 < (MaxFrames:Int); rw [maxFrames_int]; omega⟩)]
  rw [show ((stateB k).framesIndex - 1).toNat = k - 1 from by
    show ((k:Int) - 1).toNat = k - 1
    omega]
  rw [stateB_frames_top h2]

theorem fetchExec_stateB {k : Nat} (h2 : 2 ≤ k) (hk : k ≤ 1023) :
    fetchExec (stateB k) = .ok (stateA (k + 1)) := by
  have hcf := currentFrame_stateB h2 (by omega)
  simp only [fetchExec]
  rw [hcf]
  simp only [Res.bind_ok]
  show (Res.ok 24).bind (fun b =>
    match decode b with
    | none => Res.err ("invalid opcode received: " ++ toString b)
    | some op => execOp (setCurrentFrame (stateB k) ⟨recFn, 3, (k:Int) - 1⟩)
        recBody 3 op) = .ok (stateA (k + 1))
  simp only [Res.bind_ok]
  show execOp (setCurrentFrame (stateB k) ⟨recFn, 3, (k:Int) - 1⟩)
      recBody 3 Op.call = .ok (stateA (k + 1))
  simp only [execOp]
  rw [show readByte recBody (3 + 1) = Res.ok 0 from rfl]
  simp only [Res.bind_ok]
  have hcf1 : currentFrame (setCurrentFrame (stateB k) ⟨recFn, 3, (k:Int) - 1⟩) =
      .ok ⟨recFn, 3, (k:Int) - 1⟩ := currentFrame_setCurrentFrame _ hcf
  rw [show advanceIp (setCurrentFrame (stateB k) ⟨recFn, 3, (k:Int) - 1⟩) 1 =
      Res.ok (setCurrentFrame (setCurrentFrame (stateB k) ⟨recFn, 3, (k:Int) - 1⟩)
        ⟨recFn, 4, (k:Int) - 1⟩) from by
    unfold advanceIp
    rw [hcf1]
    rfl]
  simp only [Res.bind_ok]
  unfold executeCall
  rw [show readStack (setCurrentFrame (setCurrentFrame (stateB k)
        ⟨recFn, 3, (k:Int) - 1⟩) ⟨recFn, 4, (k:Int) - 1⟩)
      ((setCurrentFrame (setCurrentFrame (stateB k) ⟨recFn, 3, (k:Int) - 1⟩)
        ⟨recFn, 4, (k:Int) - 1⟩).sp - 1 - (0:Nat)) =
      Res.ok (some (Obj.closureObj recFn)) from by
    unfold readStack
    rw [if_pos (show (0:Int) ≤ (setCurrentFrame (setCurrentFrame (stateB k)
        ⟨recFn, 3, (k:Int) - 1⟩) ⟨recFn, 4, (k:Int) - 1⟩).sp - 1 - (0:Nat) ∧
        (setCurrentFrame (setCurrentFrame (stateB k) ⟨recFn, 3, (k:Int) - 1⟩)
          ⟨recFn, 4, (k:Int) - 1⟩).sp - 1 - (0:Nat) < (StackSize:Int) from
      ⟨by show (0:Int) ≤ (k:Int) - 1 - (0:Nat); omega,
       by show (k:Int) - 1 - (0:Nat) < (StackSize:Int); rw [stackSize_int]; omega⟩)]
    show Res.ok ((stateB k).stack ((k:Int) - 1 - (0:Nat)).toNat) = _
    rw [show ((k:Int) - 1 - (0:Nat)).toNat = k - 1 from by omega]
    show Res.ok (if k - 1 < k then some (Obj.closureObj recFn) else none) = _
    rw [if_pos (by omega)]]
  simp only [Res.bind_ok]
  show callClosure (setCurrentFrame (setCurrentFrame (stateB k)
      ⟨recFn, 3, (k:Int) - 1⟩) ⟨recFn, 4, (k:Int) - 1⟩) recFn 0 =
    .ok (stateA (k + 1))
  simp only [callClosure, NewFrame]
  rw [if_neg (show ¬ ((0:Nat) ≠ recFn.numParameters) from by decide)]
  unfold pushFrame
  rw [if_pos (show (0:Int) ≤ (setCurrentFrame (setCurrentFrame (stateB k)
      ⟨recFn, 3, (k:Int) - 1⟩) ⟨recFn, 4, (k:Int) - 1⟩).framesIndex ∧
      (setCurrentFrame (setCurrentFrame (stateB k) ⟨recFn, 3, (k:Int) - 1⟩)
        ⟨recFn, 4, (k:Int) - 1⟩).framesIndex < (MaxFrames:Int) from
    ⟨by show (0:Int) ≤ (k:Int); omega,
     by show (k:Int) < (MaxFrames:Int); rw [maxFrames_int]; omega⟩)]
  simp only [Res.bind_ok]
  congr 1
  apply VMState.extEq
  · rfl
  · rfl
  · intro j
    show (if j < k then some (Obj.closureObj recFn) else none)
      = (if j + 1 < k + 1 then some (Obj.closureObj recFn) else none)
    split_ifs <;> first | rfl | omega | (exfalso; omega)
  · show (k:Int) - (0:Nat) + ((0:Nat):Int) = ((k + 1 : Nat) : Int) - 1
    push_cast
    ring
  · intro j
    rfl
  · intro j
    show updFn (updFn (updFn (stateB k).frames ((k:Int) - 1).toNat
        (some ⟨recFn, 3, (k:Int) - 1⟩)) ((k:Int) - 1).toNat
        (some ⟨recFn, 4, (k:Int) - 1⟩)) ((k:Int)).toNat
        (some ⟨recFn, -1, (k:Int) - (0:Nat)⟩) j = (stateA (k + 1)).frames j
    rw [show ((k:Int) - 1).toNat = k - 1 from by omega,
        show ((k:Int)).toNat = k from by omega]
    show (if j = k then some (⟨recFn, -1, (k:Int) - (0:Nat)⟩ : Frame)
      else if j = k - 1 then some (⟨recFn, 4, (k:Int) - 1⟩ : Frame)
      else if j = k - 1 then some (⟨recFn, 3, (k:Int) - 1⟩ : Frame)
      else if j = 0 then some mainFrame11
      else if j + 1 < k then some (⟨recFn, 4, (j : Int)⟩ : Frame)
      else if j + 1 = k then some (⟨recFn, 2, (k : Int) - 1⟩ : Frame)
      else none)
      = (if j = 0 then some mainFrame11
      else if j + 1 < k + 1 then some (⟨recFn, 4, (j : Int)⟩ : Frame)
      else if j + 1 = k + 1 then some (⟨recFn, -1, ((k + 1 : Nat) : Int) - 1⟩ : Frame)
      else none)
    split_ifs <;>
      first
        | rfl
        | omega
        | (exact optFrame_eq _ _ (by push_cast; omega))
        | (exfalso; omega)
  · show (k:Int) + 1 = ((k + 1 : Nat) : Int)
    push_cast
    ring

theorem stepB {k : Nat} (h2 : 2 ≤ k) (hk : k ≤ 1023) :
    step (stateB k) = .running (stateA (k + 1)) := by
  unfold step
  have hsc : stepCore (stateB k) = .ok (some (stateA (k + 1))) := by
    unfold stepCore
    rw [currentFrame_stateB h2 (by omega)]
    simp only [Res.bind_ok]
    rw [if_pos (show ((⟨recFn, 2, (k:Int) - 1⟩ : Frame)).ip <
        ((((⟨recFn, 2, (k:Int) - 1⟩ : Frame)).fn.instructions.length : Int) - 1) from by
      show (2 : Int) < (5 : Int) - 1
      norm_num)]
    rw [fetchExec_stateB h2 hk]
    rfl
  rw [hsc]
  rfl

theorem stepB_top : step (stateB 1024) = .crashed := rfl

theorem base4 : stepIter 4 recInit = .running (stateA 2) := by
  have h0 : stepIter 4 recInit = .running ((stepIter 4 recInit).stateD) := rfl
  have h1 : (stepIter 4 recInit).stateD = stateA 2 := by
    apply VMState.extEq
    · rfl
    · rfl
    · intro j
      exact match j with
        | 0 => rfl
        | 1 => rfl
        | (j + 2) => rfl
    · rfl
    · intro j
      exact match j with
        | 0 => rfl
        | (j + 1) => rfl
    · intro j
      exact match j with
        | 0 => rfl
        | 1 => rfl
        | (j + 2) => rfl
    · rfl
  rw [h1] at h0
  exact h0

theorem reachA : ∀ k : Nat, 2 ≤ k → k ≤ 1024 →
    stepIter (2 * k) recInit = .running (stateA k) := by
  intro k
  induction k with
  | zero => omega
  | succ k ih =>
    intro h2 hk
    by_cases hbase : k + 1 = 2
    · rw [hbase]
      exact base4
    · have h2k : 2 ≤ k := by omega
      have hA : stepIter (2 * k + 1) recInit = .running (stateB k) := by
        rw [stepIter_succ_run (ih h2k (by omega)), stepA h2k (by omega)]
      have hB : stepIter (2 * k + 1 + 1) recInit = .running (stateA (k + 1)) := by
        rw [stepIter_succ_run hA, stepB h2k (by omega)]
      show stepIter (2 * (k + 1)) recInit = .running (stateA (k + 1))
      rw [show 2 * (k + 1) = 2 * k + 1 + 1 from by ring]
      exact hB

theorem reach2049 : stepIter 2049 recInit = .running (stateB 1024) := by
  have h := reachA 1024 (by norm_num) (le_refl _)
  rw [show 2 * 1024 = 2048 from by norm_num] at h
  show stepIter (2048 + 1) recInit = _
  rw [stepIter_succ_run h, stepA (k := 1024) (by norm_num) (le_refl _)]

theorem crash2050 : stepIter 2050 recInit = .crashed := by
  show stepIter (2049 + 1) recInit = _
  rw [stepIter_succ_run reach2049, stepB_top]

/-- Whether the next loop iteration from boundary `s` would attempt to push
a call frame: the loop condition holds, the fetched opcode is `OpCall`, and
the callee below the arguments is a closure expecting that arity. -/
def attemptsClosureCall (s : VMState) : Bool :=
  match currentFrame s with
  | .ok fr =>
    decide (fr.ip < (fr.fn.instructions.length : Int) - 1) &&
    (match readByte fr.fn.instructions (fr.ip + 1) with
     | .ok b =>
       decide (decode b = some Op.call) &&
       (match readByte fr.fn.instructions (fr.ip + 2) with
        | .ok n =>
          (match readStack s (s.sp - 1 - n) with
           | .ok (some (.closureObj fn)) => decide (n = fn.numParameters)
           | _ => false)
        | _ => false)
     | _ => false)
  | _ => false


/-- C1 (counterexample): the claim as stated — that every execution which
attempts to push a 1,025-th frame has `Run()` surface a program error — is
false: the self-recursing program `let f = fn(){ f() }; f()` reaches frame
depth 1024 and the 1,025-th push attempt is an out-of-range write to the
fixed frames array (a Go runtime panic, modelled as a crash), not a
returned error. -/
theorem C1_counterexample :
    ¬ (∀ (instrs : List Nat) (consts : List Obj) (bs : List BuiltinImpl)
        (s : VMState), Reachable instrs consts bs s →
        s.framesIndex = 1024 → attemptsClosureCall s = true →
        (step s).isErrored = true) := by
  intro hclaim
  have h := hclaim recMain recConsts [] (stateB 1024) ⟨2049, reach2049⟩ rfl rfl
  rw [stepB_top] at h
  simp [RunRes.isErrored] at h

/-- C1 (amended): the frame-depth invariant `1 ≤ frames ≤ MaxFrames (1024)`
holds at every instruction boundary of every run; but the attempt to push a
1,025-th frame is a Go runtime panic (`pushFrame` writes past the fixed
1024-slot array with no capacity check), not an error surfaced by
`Run()`. -/
theorem C1_frame_depth_amended :
    (∀ (instrs : List Nat) (consts : List Obj) (bs : List BuiltinImpl)
        (s : VMState), Reachable instrs consts bs s →
      1 ≤ s.framesIndex ∧ s.framesIndex ≤ 1024) ∧
    (∀ (s : VMState) (fr : Frame), s.framesIndex = 1024 →
      pushFrame s fr = .crash) :=
  ⟨fun _ _ _ _ h => ⟨(reachable_inv h).2.1, (reachable_inv h).2.2.1⟩,
   fun _ fr h => pushFrame_crash_of_full h⟩

/-- C1 witness: the amended theorem applied at the initial state of the
empty program and at a concrete full frame stack. -/
theorem C1_frame_depth_amended_witness :
    (1 ≤ (initialVM [] [] []).framesIndex ∧
      (initialVM [] [] []).framesIndex ≤ 1024) ∧
    pushFrame { initialVM [] [] [] with framesIndex := 1024 }
      (NewFrame ⟨[], 0, 0⟩ 0) = .crash :=
  ⟨C1_frame_depth_amended.1 [] [] [] _ ⟨0, rfl⟩,
   C1_frame_depth_amended.2 _ _ rfl⟩

/-- The C2 counterexample program: call a closure whose `NumLocals` field
is 2049, so that entering it sets `sp = base_pointer + 2049 > 2048`. -/
def c2Consts : List Obj := [.compiledFnObj ⟨[], 2049, 0⟩]

def c2Main : List Nat := [opClosure, 0, 0, 0, opCall, 0]

/-- C2 (counterexample): the claim that `0 ≤ sp ≤ 2048` holds at every
instruction boundary is false: calling a closure with `numLocals = 2049`
reaches the boundary right after `OpCall` with `sp = 2050`, because
`callClosure` sets `sp = base_pointer + numLocals` with no capacity
check. -/
theorem C2_counterexample :
    ¬ (∀ (instrs : List Nat) (consts : List Obj) (bs : List BuiltinImpl)
        (s : VMState), Reachable instrs consts bs s →
        0 ≤ s.sp ∧ s.sp ≤ 2048) := by
  intro hclaim
  have hsp : (stepIter 2 (initialVM c2Main c2Consts [])).spOf = some 2050 := rfl
  cases hev : stepIter 2 (initialVM c2Main c2Consts []) with
  | running s =>
    rw [hev] at hsp
    simp only [RunRes.spOf, Option.some.injEq] at hsp
    have h := (hclaim c2Main c2Consts [] s ⟨2, hev⟩).2
    omega
  | halted s => rw [hev] at hsp; simp [RunRes.spOf] at hsp
  | errored m => rw [hev] at hsp; simp [RunRes.spOf] at hsp
  | crashed => rw [hev] at hsp; simp [RunRes.spOf] at hsp

/-- C2 (amended): `0 ≤ sp` holds at every instruction boundary of every
run; and a loop iteration from a boundary with `0 ≤ sp ≤ 2048` keeps
`0 ≤ sp` and keeps `sp ≤ 2048` unless the executed instruction was
`OpCall` (closure entry reserves local slots with no upper bound check). -/
theorem C2_stack_bounds_amended :
    (∀ (instrs : List Nat) (consts : List Obj) (bs : List BuiltinImpl)
        (s : VMState), Reachable instrs consts bs s → 0 ≤ s.sp) ∧
    (∀ s s1 : VMState, step s = .running s1 → 0 ≤ s.sp → s.sp ≤ 2048 →
      0 ≤ s1.sp ∧ (s1.sp ≤ 2048 ∨ fetchedOp s = some Op.call)) :=
  ⟨fun _ _ _ _ h => (reachable_inv h).1,
   fun s s1 h h0 h2 =>
     ⟨(step_running_inv h).1 h0, (step_running_inv h).2.1 h0 h2⟩⟩

/-- C2 witness: the amended theorem applied at the initial state of the
one-instruction program `OpTrue` and at its first step. -/
theorem C2_stack_bounds_amended_witness :
    0 ≤ (initialVM [opTrue] [] []).sp ∧
    (0 ≤ (step (initialVM [opTrue] [] [])).stateD.sp ∧
      ((step (initialVM [opTrue] [] [])).stateD.sp ≤ 2048 ∨
        fetchedOp (initialVM [opTrue] [] []) = some Op.call)) :=
  ⟨C2_stack_bounds_amended.1 [opTrue] [] [] _ ⟨0, rfl⟩,
   C2_stack_bounds_amended.2 _ _ rfl (by show (0:Int) ≤ 0; norm_num)
     (by show (0:Int) ≤ 2048; norm_num)⟩

/-- Decompose a successful loop iteration into the `execOp` call it made:
the dispatched opcode is the fetched one and the state passed on has the
pre-incremented instruction pointer. -/
theorem step_decomp {s s1 : VMState} {fr : Frame} {op : Op}
    (h : step s = .running s1) (hcf : currentFrame s = .ok fr)
    (hop : fetchedOp s = some op) :
    execOp (setCurrentFrame s { fr with ip := fr.ip + 1 })
      fr.fn.instructions (fr.ip + 1) op = .ok s1 := by
  unfold step at h
  cases hsc : stepCore s with
  | ok a =>
    rw [hsc] at h
    cases a with
    | none => cases h
    | some t =>
      rw [mkRun_ok_some] at h
      cases h
      unfold stepCore at hsc
      rw [hcf] at hsc
      rw [Res.bind_ok] at hsc
      split at hsc
      · rw [Res.bind_eq_ok] at hsc
        obtain ⟨u, hfe, heq⟩ := hsc
        cases heq
        simp only [fetchExec] at hfe
        rw [hcf] at hfe
        rw [Res.bind_ok, Res.bind_eq_ok] at hfe
        obtain ⟨b, hbyte, hfe⟩ := hfe
        rw [fetchedOp_eq hcf hbyte] at hop
        rw [hop] at hfe
        exact hfe
      · cases hsc
  | err m => rw [hsc] at h; cases h
  | crash => rw [hsc] at h; cases h

/-- Build a loop iteration from its pieces: with the loop condition true
and the fetched byte decoding to `op`, `step` is the packaged result of
`execOp`. -/
theorem step_eq_of_exec {s : VMState} {fr : Frame} {b : Nat} {op : Op}
    {r : Res VMState}
    (hcf : currentFrame s = .ok fr)
    (hcond : fr.ip < (fr.fn.instructions.length : Int) - 1)
    (hb : readByte fr.fn.instructions (fr.ip + 1) = .ok b)
    (hdec : decode b = some op)
    (hex : execOp (setCurrentFrame s { fr with ip := fr.ip + 1 })
      fr.fn.instructions (fr.ip + 1) op = r) :
    step s = mkRun s (r.bind fun t => .ok (some t)) := by
  unfold step stepCore
  rw [hcf, Res.bind_ok, if_pos hcond]
  simp only [fetchExec]
  rw [hcf, Res.bind_ok, hb, Res.bind_ok, hdec]
  show mkRun s ((execOp (setCurrentFrame s { fr with ip := fr.ip + 1 })
    fr.fn.instructions (fr.ip + 1) op).bind fun t => Res.ok (some t)) = _
  rw [hex]


/-- C3: a successful `OpReturnValue` pops the return value, pops the frame,
sets `sp = frame.base_pointer − 1` (discarding locals and the callee) and
pushes the return value, so afterwards `sp = base_pointer − 1 + 1` and the
old top of stack sits at `base_pointer − 1`; `OpReturn` does the same but
pushes `NULL`; and a closure `OpCall` of arity `argc` enters a frame with
`base_pointer = sp − argc`, so the returned-to depth `base_pointer`
equals `depth_before_call − argc − 1 + 1`. -/
theorem C3_return_semantics :
    (∀ (s s1 : VMState) (fr : Frame), step s = .running s1 →
      currentFrame s = .ok fr → fetchedOp s = some Op.returnValue →
      s1.sp = fr.basePointer - 1 + 1 ∧
      s1.framesIndex = s.framesIndex - 1 ∧
      s1.stack (fr.basePointer - 1).toNat = s.stack (s.sp - 1).toNat) ∧
    (∀ (s s1 : VMState) (fr : Frame), step s = .running s1 →
      currentFrame s = .ok fr → fetchedOp s = some Op.ret →
      s1.sp = fr.basePointer - 1 + 1 ∧
      s1.framesIndex = s.framesIndex - 1 ∧
      s1.stack (fr.basePointer - 1).toNat = some Obj.nullObj) ∧
    (∀ (s s1 : VMState) (fr : Frame) (n : Nat) (fn : CompiledFunction),
      step s = .running s1 → currentFrame s = .ok fr →
      fetchedOp s = some Op.call →
      readByte fr.fn.instructions (fr.ip + 1 + 1) = .ok n →
      readStack s (s.sp - 1 - n) = .ok (some (.closureObj fn)) →
      currentFrame s1 = .ok ⟨fn, -1, s.sp - n⟩ ∧
      s1.sp = s.sp - n + fn.numLocals ∧
      s1.framesIndex = s.framesIndex + 1) := by
  refine ⟨?_, ?_, ?_⟩
  · -- OpReturnValue
    intro s s1 fr h hcf hop
    have hex := step_decomp h hcf hop
    simp only [execOp] at hex
    rw [Res.bind_eq_ok] at hex
    obtain ⟨p, hp, hex⟩ := hex
    rw [Res.bind_eq_ok] at hex
    obtain ⟨fp, hpf, hpush⟩ := hex
    obtain ⟨ha, hb2, hpeq⟩ := pop_ok hp
    have hp2fi : p.2.framesIndex = s.framesIndex := by
      rw [hpeq]
      try rfl
    have hp2fr : p.2.frames =
        (setCurrentFrame s { fr with ip := fr.ip + 1 }).frames := by
      rw [hpeq]
      try rfl
    have hp1v : p.1 = s.stack (s.sp - 1).toNat := by
      rw [hpeq]
      try rfl
    obtain ⟨hq1, hq2, hq3, hq4⟩ := popFrame_ok hpf
    obtain ⟨hp0, hp1, hseq⟩ := push_ok hpush
    have hfp1 : fp.1 = { fr with ip := fr.ip + 1 } := by
      have hidx : (p.2.framesIndex - 1).toNat = (s.framesIndex - 1).toNat := by
        rw [hp2fi]
      rw [hidx, hp2fr] at hq3
      have h5 : updFn s.frames (s.framesIndex - 1).toNat
          (some { fr with ip := fr.ip + 1 }) (s.framesIndex - 1).toNat =
          some fp.1 := hq3
      rw [updFn_same] at h5
      exact (Option.some.inj h5).symm
    refine ⟨?_, ?_, ?_⟩
    · rw [hseq]
      show fp.1.basePointer - 1 + 1 = fr.basePointer - 1 + 1
      rw [hfp1]
    · rw [hseq]
      show fp.2.framesIndex = s.framesIndex - 1
      rw [hq4]
      show p.2.framesIndex - 1 = _
      rw [hp2fi]
    · rw [hseq]
      show updFn fp.2.stack ((fp.1.basePointer - 1)).toNat p.1
        ((fr.basePointer - 1).toNat) = s.stack (s.sp - 1).toNat
      rw [hfp1]
      show updFn fp.2.stack ((fr.basePointer - 1)).toNat p.1
        ((fr.basePointer - 1).toNat) = s.stack (s.sp - 1).toNat
      rw [updFn_same]
      exact hp1v
  · -- OpReturn
    intro s s1 fr h hcf hop
    have hex := step_decomp h hcf hop
    simp only [execOp] at hex
    rw [Res.bind_eq_ok] at hex
    obtain ⟨fp, hpf, hpush⟩ := hex
    obtain ⟨hq1, hq2, hq3, hq4⟩ := popFrame_ok hpf
    obtain ⟨hp0, hp1, hseq⟩ := push_ok hpush
    have hfp1 : fp.1 = { fr with ip := fr.ip + 1 } := by
      have h5 : updFn s.frames (s.framesIndex - 1).toNat
          (some { fr with ip := fr.ip + 1 }) (s.framesIndex - 1).toNat =
          some fp.1 := hq3
      rw [updFn_same] at h5
      exact (Option.some.inj h5).symm
    refine ⟨?_, ?_, ?_⟩
    · rw [hseq]
      show fp.1.basePointer - 1 + 1 = fr.basePointer - 1 + 1
      rw [hfp1]
    · rw [hseq]
      show fp.2.framesIndex = s.framesIndex - 1
      rw [hq4]
      try rfl
    · rw [hseq]
      show updFn fp.2.stack ((fp.1.basePointer - 1)).toNat (some Obj.nullObj)
        ((fr.basePointer - 1).toNat) = some Obj.nullObj
      rw [hfp1]
      show updFn fp.2.stack ((fr.basePointer - 1)).toNat (some Obj.nullObj)
        ((fr.basePointer - 1).toNat) = some Obj.nullObj
      rw [updFn_same]
  · -- OpCall on a closure
    intro s s1 fr n fn h hcf hop hbn hcallee
    have hex := step_decomp h hcf hop
    simp only [execOp] at hex
    rw [Res.bind_eq_ok] at hex
    obtain ⟨n2, hbn2, hex⟩ := hex
    rw [hbn] at hbn2
    cases hbn2
    rw [Res.bind_eq_ok] at hex
    obtain ⟨s3, hadv, hex⟩ := hex
    obtain ⟨fr2, hcf2', hs3⟩ := advanceIp_ok hadv
    have hsp3 : s3.sp = s.sp := by
      rw [hs3]
      try rfl
    have hfi3 : s3.framesIndex = s.framesIndex := by
      rw [hs3]
      try rfl
    unfold executeCall at hex
    rw [Res.bind_eq_ok] at hex
    obtain ⟨callee, hrd, hex⟩ := hex
    rw [hs3] at hrd
    have hrd2 : readStack s (s.sp - 1 - n) = Res.ok callee := hrd
    rw [hcallee] at hrd2
    cases hrd2
    unfold callClosure at hex
    have hex2 : (if n ≠ fn.numParameters then
        Res.err ("wrong number of arguments: expected=" ++
          toString fn.numParameters ++ ", got=" ++ toString n)
      else (pushFrame s3 (NewFrame fn (s3.sp - ↑n))).bind fun t =>
        Res.ok { t with
          sp := (NewFrame fn (s3.sp - ↑n)).basePointer + ↑fn.numLocals }) =
        Res.ok s1 := hex
    clear hex
    by_cases harg : (n ≠ fn.numParameters)
    · rw [if_pos harg] at hex2
      cases hex2
    · rw [if_neg harg] at hex2
      rw [Res.bind_eq_ok] at hex2
      obtain ⟨s4, hpf, heq⟩ := hex2
      obtain ⟨hf0, hf1, rfl⟩ := pushFrame_ok hpf
      cases heq
      obtain ⟨hg1, hg2, _⟩ := currentFrame_ok hcf
      refine ⟨?_, ?_, ?_⟩
      · unfold currentFrame
        rw [if_pos (show (0:Int) ≤ (s3.framesIndex + 1) - 1 ∧
            (s3.framesIndex + 1) - 1 < (MaxFrames:Int) from
          ⟨by rw [hfi3]; omega, by rw [maxFrames_int, hfi3]; rw [hfi3] at hf1; omega⟩)]
        rw [show ((s3.framesIndex + 1) - 1).toNat = s3.framesIndex.toNat from by
          omega]
        show (match updFn s3.frames s3.framesIndex.toNat
            (some (NewFrame fn (s3.sp - ↑n))) s3.framesIndex.toNat with
          | some fr => Res.ok fr
          | none => Res.crash) = Res.ok ⟨fn, -1, s.sp - ↑n⟩
        rw [updFn_same]
        rw [show s3.sp = s.sp from hsp3]
        rfl
      · show (NewFrame fn (s3.sp - ↑n)).basePointer + (fn.numLocals : Int) =
          s.sp - ↑n + ↑fn.numLocals
        show s3.sp - ↑n + (fn.numLocals : Int) = s.sp - ↑n + ↑fn.numLocals
        rw [hsp3]
      · show s3.framesIndex + 1 = s.framesIndex + 1
        rw [hfi3]
def c3Consts : List Obj := [.compiledFnObj ⟨[opTrue, opReturnValue], 0, 0⟩]

def c3Main : List Nat := [opClosure, 0, 0, 0, opCall, 0]

def c3s1 : VMState := (stepIter 1 (initialVM c3Main c3Consts [])).stateD

def c3s3 : VMState := (stepIter 3 (initialVM c3Main c3Consts [])).stateD

def c3rConsts : List Obj := [.compiledFnObj ⟨[opReturn], 0, 0⟩]

def c3r2 : VMState := (stepIter 2 (initialVM c3Main c3rConsts [])).stateD

/-- C3 witness: the three parts applied to the concrete boundaries of the
call/return programs built from `c3Main`. -/
theorem C3_return_semantics_witness :
    ((step c3s3).stateD.sp = (1:Int) - 1 + 1 ∧
      (step c3s3).stateD.framesIndex = c3s3.framesIndex - 1 ∧
      (step c3s3).stateD.stack ((1:Int) - 1).toNat =
        c3s3.stack (c3s3.sp - 1).toNat) ∧
    ((step c3r2).stateD.sp = (1:Int) - 1 + 1 ∧
      (step c3r2).stateD.framesIndex = c3r2.framesIndex - 1 ∧
      (step c3r2).stateD.stack ((1:Int) - 1).toNat = some Obj.nullObj) ∧
    (currentFrame (step c3s1).stateD =
        .ok ⟨⟨[opTrue, opReturnValue], 0, 0⟩, -1, c3s1.sp - ((0:Nat):Int)⟩ ∧
      (step c3s1).stateD.sp = c3s1.sp - ((0:Nat):Int) +
        ((⟨[opTrue, opReturnValue], 0, 0⟩ : CompiledFunction).numLocals : Int) ∧
      (step c3s1).stateD.framesIndex = c3s1.framesIndex + 1) :=
  ⟨C3_return_semantics.1 c3s3 _ ⟨⟨[opTrue, opReturnValue], 0, 0⟩, 0, 1⟩ rfl rfl rfl,
   C3_return_semantics.2.1 c3r2 _ ⟨⟨[opReturn], 0, 0⟩, -1, 1⟩ rfl rfl rfl,
   C3_return_semantics.2.2 c3s1 _ ⟨⟨c3Main, 0, 0⟩, 3, 0⟩ 0
     ⟨[opTrue, opReturnValue], 0, 0⟩ rfl rfl rfl rfl rfl⟩



/-- Stack state holding two string operands, used to refute the claim's
parenthetical that same-type pairs such as String/String do not error. -/
def c4state : VMState :=
  { initialVM [] [] [] with
      stack := updFn (updFn (fun _ => none) 0 (some (.strObj "a"))) 1
        (some (.strObj "b")),
      sp := 2 }

/-- C4 counterexample: the claim's parenthetical reading — that same-type
operand pairs other than integer/integer and bool/bool (e.g. String/String)
do not produce the "unsupported types for binary comparison" error — is
false: comparing two strings with OpEqual produces exactly that error. -/
theorem C4_counterexample :
    ¬ (∀ (s : VMState) (l r : Obj) (opb : Nat),
        readStack s (s.sp - 1) = .ok (some r) →
        readStack s (s.sp - 1 - 1) = .ok (some l) →
        l.typeName = r.typeName →
        executeComparison s opb ≠
          .err ("unsupported types for binary comparison: " ++ l.typeName ++
            " " ++ r.typeName)) := by
  intro hclaim
  exact hclaim c4state (.strObj "a") (.strObj "b") opEqual rfl rfl rfl rfl

/-- C4 (amended): comparison dispatch on the two popped operands.
Integer/integer pairs compare by value for OpEqual, OpNotEqual and
OpGreaterThan; boolean/boolean pairs compare by value for OpEqual and
OpNotEqual while OpGreaterThan on booleans is the "unknown binary boolean
comparison operator" error; and every other operand pair — cross-type or
same-type, including String/String and Null/Null — produces the
"unsupported types for binary comparison" error. -/
theorem C4_comparison_amended :
    (∀ (s : VMState) (a b : Int),
      readStack s (s.sp - 1) = .ok (some (.intObj b)) →
      readStack s (s.sp - 1 - 1) = .ok (some (.intObj a)) →
      executeComparison s opEqual =
        push { s with sp := s.sp - 1 - 1 } (some (.boolObj (decide (a = b)))) ∧
      executeComparison s opNotEqual =
        push { s with sp := s.sp - 1 - 1 } (some (.boolObj (decide (a ≠ b)))) ∧
      executeComparison s opGreaterThan =
        push { s with sp := s.sp - 1 - 1 } (some (.boolObj (decide (b < a))))) ∧
    (∀ (s : VMState) (x y : Bool),
      readStack s (s.sp - 1) = .ok (some (.boolObj y)) →
      readStack s (s.sp - 1 - 1) = .ok (some (.boolObj x)) →
      executeComparison s opEqual =
        push { s with sp := s.sp - 1 - 1 } (some (.boolObj (x == y))) ∧
      executeComparison s opNotEqual =
        push { s with sp := s.sp - 1 - 1 } (some (.boolObj (x != y))) ∧
      executeComparison s opGreaterThan =
        .err ("unknown binary boolean comparison operator: " ++
          toString opGreaterThan)) ∧
    (∀ (s : VMState) (l r : Obj) (opb : Nat),
      readStack s (s.sp - 1) = .ok (some r) →
      readStack s (s.sp - 1 - 1) = .ok (some l) →
      ¬ (l.isInt = true ∧ r.isInt = true) →
      ¬ (l.isBool = true ∧ r.isBool = true) →
      executeComparison s opb =
        .err ("unsupported types for binary comparison: " ++ l.typeName ++
          " " ++ r.typeName)) := by
  have key : ∀ (s : VMState) (l r : Obj) (opb : Nat),
      readStack s (s.sp - 1) = .ok (some r) →
      readStack s (s.sp - 1 - 1) = .ok (some l) →
      executeComparison s opb =
        (match l, r with
          | .intObj a, .intObj b =>
            executeIntegerComparison { s with sp := s.sp - 1 - 1 } opb a b
          | .boolObj a, .boolObj b =>
            executeBooleanComparison { s with sp := s.sp - 1 - 1 } opb a b
          | _, _ =>
            .err ("unsupported types for binary comparison: " ++ l.typeName ++
              " " ++ r.typeName)) := by
    intro s l r opb h1 h2
    unfold executeComparison pop
    rw [h1]
    simp only [Res.bind_ok]
    have h2' : readStack { s with sp := s.sp - 1 }
        ((some r, { s with sp := s.sp - 1 }).2.sp - 1) = .ok (some l) := h2
    rw [h2']
    simp only [Res.bind_ok]
  refine ⟨?_, ?_, ?_⟩
  · intro s a b h1 h2
    refine ⟨?_, ?_, ?_⟩
    · rw [key s (.intObj a) (.intObj b) opEqual h1 h2]
      show executeIntegerComparison { s with sp := s.sp - 1 - 1 } opEqual a b = _
      unfold executeIntegerComparison
      rw [if_pos rfl]
      try rfl
    · rw [key s (.intObj a) (.intObj b) opNotEqual h1 h2]
      show executeIntegerComparison { s with sp := s.sp - 1 - 1 } opNotEqual a b = _
      unfold executeIntegerComparison
      rw [if_neg (by decide), if_pos rfl]
      try rfl
    · rw [key s (.intObj a) (.intObj b) opGreaterThan h1 h2]
      show executeIntegerComparison { s with sp := s.sp - 1 - 1 } opGreaterThan a b = _
      unfold executeIntegerComparison
      rw [if_neg (by decide), if_neg (by decide), if_pos rfl]
      try rfl
  · intro s x y h1 h2
    refine ⟨?_, ?_, ?_⟩
    · rw [key s (.boolObj x) (.boolObj y) opEqual h1 h2]
      show executeBooleanComparison { s with sp := s.sp - 1 - 1 } opEqual x y = _
      unfold executeBooleanComparison
      rw [if_pos rfl]
      try rfl
    · rw [key s (.boolObj x) (.boolObj y) opNotEqual h1 h2]
      show executeBooleanComparison { s with sp := s.sp - 1 - 1 } opNotEqual x y = _
      unfold executeBooleanComparison
      rw [if_neg (by decide), if_pos rfl]
      try rfl
    · rw [key s (.boolObj x) (.boolObj y) opGreaterThan h1 h2]
      show executeBooleanComparison { s with sp := s.sp - 1 - 1 } opGreaterThan x y = _
      unfold executeBooleanComparison
      rw [if_neg (by decide), if_neg (by decide)]
      try rfl
  · intro s l r opb h1 h2 hni hnb
    rw [key s l r opb h1 h2]
    cases l <;> cases r <;>
      first
        | rfl
        | exact absurd (And.intro rfl rfl) hni
        | exact absurd (And.intro rfl rfl) hnb


/-- Stack state holding two integer operands 2 (below) and 3 (top). -/
def c4int : VMState :=
  { initialVM [] [] [] with
      stack := updFn (updFn (fun _ => none) 0 (some (.intObj 2))) 1
        (some (.intObj 3)),
      sp := 2 }

/-- Witness for C4 at concrete inputs: greater-than on integers 2 and 3
pushes false, and OpEqual on two strings errors. -/
theorem C4_comparison_amended_witness :
    executeComparison c4int opGreaterThan =
      push { c4int with sp := c4int.sp - 1 - 1 }
        (some (.boolObj (decide ((3:Int) < 2)))) ∧
    executeComparison c4state opEqual =
      .err ("unsupported types for binary comparison: " ++
        (Obj.strObj "a").typeName ++ " " ++ (Obj.strObj "b").typeName) := by
  constructor
  · exact (C4_comparison_amended.1 c4int 2 3 rfl rfl).2.2
  · exact C4_comparison_amended.2.2 c4state (.strObj "a") (.strObj "b")
      opEqual rfl rfl (by decide) (by decide)


/-- Element lookup in a replicated list. -/
theorem getD_replicate (a d : Nat) :
    ∀ (n j : Nat), j < n → (List.replicate n a).getD j d = a := by
  intro n
  induction n with
  | zero => intro j h; omega
  | succ n ih =>
    intro j h
    cases j with
    | zero => rfl
    | succ j => exact ih j (by omega)

/-- Straight-line program of 2,049 OpTrue pushes. -/
def c5prog : List Nat := List.replicate 2049 opTrue

def c5fn : CompiledFunction := ⟨c5prog, 0, 0⟩

def c5init : VMState := initialVM c5prog [] []

/-- Boundary state after `k` pushes of the straight-line program: `k` TRUE
values on the stack, `sp = k`, main-frame `ip = k - 1`. -/
def stateT (k : Nat) : VMState :=
  { constants := []
    builtins := []
    stack := fun j => if j < k then some (.boolObj true) else none
    sp := (k : Int)
    globals := fun _ => none
    frames := updFn (fun _ => none) 0 (some ⟨c5fn, (k : Int) - 1, 0⟩)
    framesIndex := 1 }

theorem optFrameIp_eq (fn : CompiledFunction) (bp : Int) {a b : Int}
    (h : a = b) : some (Frame.mk fn a bp) = some (Frame.mk fn b bp) := by
  rw [h]

theorem c5prog_length : ((c5prog.length : Nat) : Int) = 2049 := by
  rw [show c5prog.length = 2049 from by rw [c5prog, List.length_replicate]]
  norm_num

theorem currentFrame_stateT (k : Nat) :
    currentFrame (stateT k) = .ok ⟨c5fn, (k : Int) - 1, 0⟩ := rfl

theorem readByte_c5prog {k : Nat} (hk : k < 2049) :
    readByte c5prog ((k : Int) - 1 + 1) = .ok opTrue := by
  unfold readByte
  rw [if_pos (show 0 ≤ (k : Int) - 1 + 1 ∧
      (k : Int) - 1 + 1 < (c5prog.length : Int) from
    ⟨by omega, by rw [c5prog_length]; omega⟩)]
  rw [show ((k : Int) - 1 + 1).toNat = k from by omega]
  rw [show c5prog.getD k 0 = opTrue from getD_replicate opTrue 0 2049 k hk]
  rfl

theorem fetchExec_stateT {k : Nat} (hk : k < 2048) :
    fetchExec (stateT k) = .ok (stateT (k + 1)) := by
  simp only [fetchExec]
  rw [currentFrame_stateT k]
  simp only [Res.bind_ok]
  rw [show c5fn.instructions = c5prog from rfl]
  rw [readByte_c5prog (by omega)]
  simp only [Res.bind_ok]
  show execOp (setCurrentFrame (stateT k) ⟨c5fn, (k : Int) - 1 + 1, 0⟩)
      c5prog ((k : Int) - 1 + 1) Op.tru = .ok (stateT (k + 1))
  show push (setCurrentFrame (stateT k) ⟨c5fn, (k : Int) - 1 + 1, 0⟩)
      (some (.boolObj true)) = .ok (stateT (k + 1))
  unfold push
  rw [if_neg (show ¬ ((StackSize : Int) ≤
      (setCurrentFrame (stateT k) ⟨c5fn, (k : Int) - 1 + 1, 0⟩).sp) from by
    show ¬ ((StackSize : Int) ≤ (k : Int))
    rw [stackSize_int]
    omega)]
  unfold writeStack
  rw [if_pos (show
      (0 : Int) ≤ (setCurrentFrame (stateT k) ⟨c5fn, (k : Int) - 1 + 1, 0⟩).sp ∧
      (setCurrentFrame (stateT k) ⟨c5fn, (k : Int) - 1 + 1, 0⟩).sp <
        (StackSize : Int) from
    ⟨by show (0 : Int) ≤ (k : Int); omega,
     by show (k : Int) < (StackSize : Int); rw [stackSize_int]; omega⟩)]
  simp only [Res.bind_ok]
  congr 1
  apply VMState.extEq
  · rfl
  · rfl
  · intro j
    show updFn (stateT k).stack ((k : Int)).toNat (some (Obj.boolObj true)) j
      = (stateT (k + 1)).stack j
    rw [show ((k : Int)).toNat = k from by omega]
    show (if j = k then some (Obj.boolObj true)
      else if j < k then some (Obj.boolObj true) else none)
      = (if j < k + 1 then some (Obj.boolObj true) else none)
    split_ifs <;> first | rfl | omega | (exfalso; omega)
  · show (k : Int) + 1 = ((k + 1 : Nat) : Int)
    omega
  · intro j
    rfl
  · intro j
    show updFn (stateT k).frames 0 (some ⟨c5fn, (k : Int) - 1 + 1, 0⟩) j
      = (stateT (k + 1)).frames j
    match j with
    | 0 =>
      show some (Frame.mk c5fn ((k : Int) - 1 + 1) 0)
        = some (Frame.mk c5fn (((k + 1 : Nat) : Int) - 1) 0)
      exact optFrameIp_eq c5fn 0 (by omega)
    | j + 1 => rfl
  · rfl

theorem stepT {k : Nat} (hk : k < 2048) :
    step (stateT k) = .running (stateT (k + 1)) := by
  unfold step
  have hsc : stepCore (stateT k) = .ok (some (stateT (k + 1))) := by
    unfold stepCore
    rw [currentFrame_stateT k]
    simp only [Res.bind_ok]
    rw [show c5fn.instructions = c5prog from rfl]
    rw [if_pos (show (k : Int) - 1 < ((c5prog.length : Nat) : Int) - 1 from by
      rw [c5prog_length]
      omega)]
    rw [fetchExec_stateT hk]
    rfl
  rw [hsc]
  rfl

theorem c5init_eq : c5init = stateT 0 := by
  apply VMState.extEq
  · rfl
  · rfl
  · intro j
    show none = (if j < 0 then some (Obj.boolObj true) else none)
    rw [if_neg (by omega)]
  · rfl
  · intro j
    rfl
  · intro j
    match j with
    | 0 =>
      show some (Frame.mk ⟨c5prog, 0, 0⟩ (-1) 0)
        = some (Frame.mk c5fn (((0 : Nat) : Int) - 1) 0)
      exact optFrameIp_eq c5fn 0 (by decide)
    | j + 1 => rfl
  · rfl

theorem reachT : ∀ k : Nat, k ≤ 2048 → stepIter k c5init = .running (stateT k) := by
  intro k
  induction k with
  | zero =>
    intro _
    show RunRes.running c5init = _
    rw [c5init_eq]
  | succ k ih =>
    intro hk
    rw [stepIter_succ_run (ih (by omega)), stepT (by omega)]

theorem err2049 : stepIter 2049 c5init = .errored "stack overflow" := by
  rw [stepIter_succ_run (reachT 2048 (by omega))]
  unfold step
  have hsc : stepCore (stateT 2048) = .err "stack overflow" := by
    unfold stepCore
    rw [currentFrame_stateT 2048]
    simp only [Res.bind_ok]
    rw [show c5fn.instructions = c5prog from rfl]
    rw [if_pos (show ((2048 : Nat) : Int) - 1 < ((c5prog.length : Nat) : Int) - 1
        from by
      rw [c5prog_length]
      omega)]
    have hfe : fetchExec (stateT 2048) = .err "stack overflow" := by
      simp only [fetchExec]
      rw [currentFrame_stateT 2048]
      simp only [Res.bind_ok]
      rw [show c5fn.instructions = c5prog from rfl]
      rw [readByte_c5prog (by omega)]
      simp only [Res.bind_ok]
      show push (setCurrentFrame (stateT 2048)
          ⟨c5fn, ((2048 : Nat) : Int) - 1 + 1, 0⟩) (some (.boolObj true))
        = .err "stack overflow"
      unfold push
      rw [if_pos (show (StackSize : Int) ≤ (setCurrentFrame (stateT 2048)
          ⟨c5fn, ((2048 : Nat) : Int) - 1 + 1, 0⟩).sp from by
        show (StackSize : Int) ≤ ((2048 : Nat) : Int)
        rw [stackSize_int]
        omega)]
    rw [hfe]
    rfl
  rw [hsc]
  rfl

/-- C5: a push succeeds exactly when `sp < StackSize = 2048` beforehand
(for the non-negative stack pointers that occur in runs); when
`sp ≥ StackSize` the push is the error "stack overflow"; and on the
straight-line program of 2,049 OpTrue pushes the first 2,048 iterations
each complete a push (boundary `k` has `sp = k`) while iteration 2,049
aborts the run with "stack overflow". -/
theorem C5_push_overflow :
    (∀ (s : VMState) (v : Option Obj), 0 ≤ s.sp →
      ((∃ s1, push s v = .ok s1) ↔ s.sp < (StackSize : Int))) ∧
    (∀ (s : VMState) (v : Option Obj), (StackSize : Int) ≤ s.sp →
      push s v = .err "stack overflow") ∧
    (∀ k : Nat, k ≤ 2048 →
      stepIter k c5init = .running (stateT k) ∧ (stateT k).sp = (k : Int)) ∧
    stepIter 2049 c5init = .errored "stack overflow" := by
  refine ⟨?_, ?_, ?_, err2049⟩
  · intro s v h0
    constructor
    · rintro ⟨s1, hp⟩
      have := push_ok hp
      rw [stackSize_int]
      omega
    · intro hlt
      refine ⟨{ s with stack := updFn s.stack s.sp.toNat v, sp := s.sp + 1 }, ?_⟩
      unfold push
      rw [if_neg (by omega)]
      unfold writeStack
      rw [if_pos ⟨h0, hlt⟩]
      rfl
  · intro s v hge
    unfold push
    rw [if_pos hge]
  · intro k hk
    exact ⟨reachT k hk, rfl⟩

/-- Witness for C5 at concrete inputs: a push at `sp = 0` succeeds, a push
at `sp = 2048` errors, and the first boundary of the straight-line program
is reached. -/
theorem C5_push_overflow_witness :
    (∃ s1, push (initialVM [] [] []) none = Res.ok s1) ∧
    push { initialVM [] [] [] with sp := 2048 } none =
      .err "stack overflow" ∧
    stepIter 1 c5init = .running (stateT 1) := by
  refine ⟨?_, ?_, ?_⟩
  · exact (C5_push_overflow.1 (initialVM [] [] []) none (by decide)).mpr
      (by decide)
  · exact C5_push_overflow.2.1 { initialVM [] [] [] with sp := 2048 } none
      (by decide)
  · exact (C5_push_overflow.2.2.1 1 (by norm_num)).1


/-- C6: OpIndex on an Array container with an Integer index dispatches to
executeArrayIndex; with room on the stack (as there always is after the two
operand pops), an in-range index `0 ≤ i ≤ len−1` pushes the element at `i`,
every other index — `i = −1` and `i = len` included — pushes `NULL`, and no
index value makes executeArrayIndex return a VM error. -/
theorem C6_array_index :
    ∀ (s : VMState) (es : List (Option Obj)) (i : Int),
      0 ≤ s.sp → s.sp < (StackSize : Int) →
      executeIndexExpression s (some (.arrayObj es)) (some (.intObj i)) =
        executeArrayIndex s es i ∧
      (0 ≤ i ∧ i ≤ (es.length : Int) - 1 →
        executeArrayIndex s es i =
          .ok { s with stack := updFn s.stack s.sp.toNat (es.getD i.toNat none),
                       sp := s.sp + 1 }) ∧
      (i < 0 ∨ (es.length : Int) - 1 < i →
        executeArrayIndex s es i =
          .ok { s with stack := updFn s.stack s.sp.toNat (some .nullObj),
                       sp := s.sp + 1 }) ∧
      (∀ m, executeArrayIndex s es i ≠ .err m) := by
  intro s es i h0 hlt
  have hp : ∀ v : Option Obj, push s v =
      .ok { s with stack := updFn s.stack s.sp.toNat v, sp := s.sp + 1 } := by
    intro v
    unfold push
    rw [if_neg (by omega)]
    unfold writeStack
    rw [if_pos ⟨h0, hlt⟩]
    rfl
  refine ⟨rfl, ?_, ?_, ?_⟩
  · intro hin
    unfold executeArrayIndex
    rw [if_neg (by omega)]
    exact hp _
  · intro hout
    unfold executeArrayIndex
    rw [if_pos hout]
    exact hp _
  · intro m
    unfold executeArrayIndex
    by_cases hc : i < 0 ∨ (es.length : Int) - 1 < i
    · rw [if_pos hc, hp]
      exact fun h => Res.noConfusion h
    · rw [if_neg hc, hp]
      exact fun h => Res.noConfusion h

/-- Witness for C6 at concrete inputs: on the one-element array `[7]` index
0 pushes the element while indices −1 and 1 push NULL. -/
theorem C6_array_index_witness :
    executeArrayIndex (initialVM [] [] []) [some (.intObj 7)] 0 =
      .ok { initialVM [] [] [] with
              stack := updFn (initialVM [] [] []).stack 0 (some (.intObj 7)),
              sp := 1 } ∧
    executeArrayIndex (initialVM [] [] []) [some (.intObj 7)] (-1) =
      .ok { initialVM [] [] [] with
              stack := updFn (initialVM [] [] []).stack 0 (some .nullObj),
              sp := 1 } ∧
    executeArrayIndex (initialVM [] [] []) [some (.intObj 7)] 1 =
      .ok { initialVM [] [] [] with
              stack := updFn (initialVM [] [] []).stack 0 (some .nullObj),
              sp := 1 } := by
  refine ⟨?_, ?_, ?_⟩
  · exact (C6_array_index (initialVM [] [] []) [some (.intObj 7)] 0
      (by decide) (by decide)).2.1 (by constructor <;> decide)
  · exact (C6_array_index (initialVM [] [] []) [some (.intObj 7)] (-1)
      (by decide) (by decide)).2.2.1 (Or.inl (by decide))
  · exact (C6_array_index (initialVM [] [] []) [some (.intObj 7)] 1
      (by decide) (by decide)).2.2.1 (Or.inr (by decide))


/-- Two-instruction round-trip program: OpSetGlobal(i) then OpGetGlobal(i),
each with its 16-bit big-endian operand. -/
def c7prog (i : Nat) : List Nat :=
  [opSetGlobal, i / 256, i % 256, opGetGlobal, i / 256, i % 256]

def c7fn (i : Nat) : CompiledFunction := ⟨c7prog i, 0, 0⟩

/-- Round-trip start state: the value `v` alone on the stack. -/
def c7s0 (i : Nat) (v : Option Obj) : VMState :=
  { initialVM (c7prog i) [] [] with
      stack := updFn (fun _ => none) 0 v
      sp := 1 }

/-- Boundary after OpSetGlobal(i): value popped into `globals[i]`. -/
def c7s1 (i : Nat) (v : Option Obj) : VMState :=
  { constants := []
    builtins := []
    stack := updFn (fun _ => none) 0 v
    sp := 0
    globals := updFn (fun _ => none) i v
    frames := updFn (fun _ => none) 0 (some ⟨c7fn i, 2, 0⟩)
    framesIndex := 1 }

/-- Boundary after OpGetGlobal(i): `globals[i]` pushed back. -/
def c7s2 (i : Nat) (v : Option Obj) : VMState :=
  { constants := []
    builtins := []
    stack := updFn (fun _ => none) 0 v
    sp := 1
    globals := updFn (fun _ => none) i v
    frames := updFn (fun _ => none) 0 (some ⟨c7fn i, 5, 0⟩)
    framesIndex := 1 }

theorem readU16_c7_1 (i : Nat) (h : i < 65536) :
    readU16 (c7prog i) 1 = .ok i := by
  show Res.ok (256 * (i / 256 % 256) + i % 256 % 256) = Res.ok i
  congr 1
  omega

theorem readU16_c7_4 (i : Nat) (h : i < 65536) :
    readU16 (c7prog i) 4 = .ok i := by
  show Res.ok (256 * (i / 256 % 256) + i % 256 % 256) = Res.ok i
  congr 1
  omega

theorem fetchExec_c7s0 {i : Nat} {v : Option Obj} (hi : i < GlobalsSize) :
    fetchExec (c7s0 i v) = .ok (c7s1 i v) := by
  simp only [fetchExec]
  rw [show currentFrame (c7s0 i v) = .ok ⟨c7fn i, -1, 0⟩ from rfl]
  simp only [Res.bind_ok]
  show (Res.ok opSetGlobal).bind (fun b =>
    match decode b with
    | none => Res.err ("invalid opcode received: " ++ toString b)
    | some op => execOp (setCurrentFrame (c7s0 i v) ⟨c7fn i, 0, 0⟩)
        (c7prog i) 0 op) = .ok (c7s1 i v)
  simp only [Res.bind_ok]
  show execOp (setCurrentFrame (c7s0 i v) ⟨c7fn i, 0, 0⟩)
      (c7prog i) 0 Op.setGlobal = .ok (c7s1 i v)
  simp only [execOp]
  rw [show (0 : Int) + 1 = 1 from rfl]
  rw [readU16_c7_1 i (by revert hi; norm_num [GlobalsSize])]
  simp only [Res.bind_ok]
  rw [show advanceIp (setCurrentFrame (c7s0 i v) ⟨c7fn i, 0, 0⟩) 2 =
      Res.ok (setCurrentFrame (setCurrentFrame (c7s0 i v) ⟨c7fn i, 0, 0⟩)
        ⟨c7fn i, 2, 0⟩) from rfl]
  simp only [Res.bind_ok]
  rw [show pop (setCurrentFrame (setCurrentFrame (c7s0 i v) ⟨c7fn i, 0, 0⟩)
        ⟨c7fn i, 2, 0⟩) =
      Res.ok (v, { setCurrentFrame (setCurrentFrame (c7s0 i v) ⟨c7fn i, 0, 0⟩)
        ⟨c7fn i, 2, 0⟩ with sp := 0 }) from rfl]
  simp only [Res.bind_ok]
  unfold writeGlobal
  rw [if_pos (show i < GlobalsSize from hi)]
  congr 1
  apply VMState.extEq
  · rfl
  · rfl
  · intro j
    rfl
  · rfl
  · intro j
    rfl
  · intro j
    match j with
    | 0 => rfl
    | j + 1 => rfl
  · rfl

theorem fetchExec_c7s1 {i : Nat} {v : Option Obj} (hi : i < GlobalsSize) :
    fetchExec (c7s1 i v) = .ok (c7s2 i v) := by
  simp only [fetchExec]
  rw [show currentFrame (c7s1 i v) = .ok ⟨c7fn i, 2, 0⟩ from rfl]
  simp only [Res.bind_ok]
  show (Res.ok opGetGlobal).bind (fun b =>
    match decode b with
    | none => Res.err ("invalid opcode received: " ++ toString b)
    | some op => execOp (setCurrentFrame (c7s1 i v) ⟨c7fn i, 3, 0⟩)
        (c7prog i) 3 op) = .ok (c7s2 i v)
  simp only [Res.bind_ok]
  show execOp (setCurrentFrame (c7s1 i v) ⟨c7fn i, 3, 0⟩)
      (c7prog i) 3 Op.getGlobal = .ok (c7s2 i v)
  simp only [execOp]
  rw [show (3 : Int) + 1 = 4 from rfl]
  rw [readU16_c7_4 i (by revert hi; norm_num [GlobalsSize])]
  simp only [Res.bind_ok]
  rw [show advanceIp (setCurrentFrame (c7s1 i v) ⟨c7fn i, 3, 0⟩) 2 =
      Res.ok (setCurrentFrame (setCurrentFrame (c7s1 i v) ⟨c7fn i, 3, 0⟩)
        ⟨c7fn i, 5, 0⟩) from rfl]
  simp only [Res.bind_ok]
  unfold readGlobal
  rw [if_pos (show i < GlobalsSize from hi)]
  simp only [Res.bind_ok]
  show push (setCurrentFrame (setCurrentFrame (c7s1 i v) ⟨c7fn i, 3, 0⟩)
      ⟨c7fn i, 5, 0⟩) (updFn (fun _ => none) i v i) = .ok (c7s2 i v)
  rw [updFn_same]
  unfold push
  rw [if_neg (show ¬ ((StackSize : Int) ≤ (setCurrentFrame (setCurrentFrame
      (c7s1 i v) ⟨c7fn i, 3, 0⟩) ⟨c7fn i, 5, 0⟩).sp) from by
    show ¬ ((StackSize : Int) ≤ (0 : Int))
    rw [stackSize_int]
    omega)]
  unfold writeStack
  rw [if_pos (show (0 : Int) ≤ (setCurrentFrame (setCurrentFrame (c7s1 i v)
      ⟨c7fn i, 3, 0⟩) ⟨c7fn i, 5, 0⟩).sp ∧ (setCurrentFrame (setCurrentFrame
      (c7s1 i v) ⟨c7fn i, 3, 0⟩) ⟨c7fn i, 5, 0⟩).sp < (StackSize : Int) from
    ⟨by show (0 : Int) ≤ (0 : Int); omega,
     by show (0 : Int) < (StackSize : Int); rw [stackSize_int]; omega⟩)]
  simp only [Res.bind_ok]
  congr 1
  apply VMState.extEq
  · rfl
  · rfl
  · intro j
    show updFn (updFn (fun _ => none) 0 v) 0 v j = updFn (fun _ => none) 0 v j
    match j with
    | 0 => rfl
    | j + 1 => rfl
  · rfl
  · intro j
    rfl
  · intro j
    match j with
    | 0 => rfl
    | j + 1 => rfl
  · rfl

theorem step_c7s0 {i : Nat} {v : Option Obj} (hi : i < GlobalsSize) :
    step (c7s0 i v) = .running (c7s1 i v) := by
  unfold step
  have hsc : stepCore (c7s0 i v) = .ok (some (c7s1 i v)) := by
    unfold stepCore
    rw [show currentFrame (c7s0 i v) = .ok ⟨c7fn i, -1, 0⟩ from rfl]
    simp only [Res.bind_ok]
    rw [if_pos (show ((⟨c7fn i, -1, 0⟩ : Frame)).ip <
        ((((⟨c7fn i, -1, 0⟩ : Frame)).fn.instructions.length : Nat) : Int) - 1
        from by
      show (-1 : Int) < ((6 : Nat) : Int) - 1
      norm_num)]
    rw [fetchExec_c7s0 hi]
    rfl
  rw [hsc]
  rfl

theorem step_c7s1 {i : Nat} {v : Option Obj} (hi : i < GlobalsSize) :
    step (c7s1 i v) = .running (c7s2 i v) := by
  unfold step
  have hsc : stepCore (c7s1 i v) = .ok (some (c7s2 i v)) := by
    unfold stepCore
    rw [show currentFrame (c7s1 i v) = .ok ⟨c7fn i, 2, 0⟩ from rfl]
    simp only [Res.bind_ok]
    rw [if_pos (show ((⟨c7fn i, 2, 0⟩ : Frame)).ip <
        ((((⟨c7fn i, 2, 0⟩ : Frame)).fn.instructions.length : Nat) : Int) - 1
        from by
      show (2 : Int) < ((6 : Nat) : Int) - 1
      norm_num)]
    rw [fetchExec_c7s1 hi]
    rfl
  rw [hsc]
  rfl

/-- C7: with any value `v` on top of the stack and any global index
`i < GlobalsSize`, running OpSetGlobal(i) then OpGetGlobal(i) takes two loop
iterations, stores the popped value at `globals[i]`, and leaves a value
equal to `v` back on top of the stack. -/
theorem C7_global_round_trip (i : Nat) (v : Option Obj)
    (hi : i < GlobalsSize) :
    stepIter 2 (c7s0 i v) = .running (c7s2 i v) ∧
    (c7s2 i v).sp = 1 ∧
    readStack (c7s2 i v) ((c7s2 i v).sp - 1) = .ok v ∧
    (c7s2 i v).globals i = v := by
  refine ⟨?_, rfl, rfl, ?_⟩
  · rw [stepIter_step (step_c7s0 hi), stepIter_step (step_c7s1 hi)]
    rfl
  · show updFn (fun _ => none) i v i = v
    exact updFn_same _ i v

/-- Witness for C7 at concrete input: the round trip through global slot
300 restores the integer 42 to the top of the stack. -/
theorem C7_global_round_trip_witness :
    stepIter 2 (c7s0 300 (some (.intObj 42))) =
      .running (c7s2 300 (some (.intObj 42))) ∧
    readStack (c7s2 300 (some (.intObj 42)))
        ((c7s2 300 (some (.intObj 42))).sp - 1) = .ok (some (.intObj 42)) := by
  have h := C7_global_round_trip 300 (some (.intObj 42))
    (by norm_num [GlobalsSize])
  exact ⟨h.1, h.2.2.1⟩


/-- Two-instruction double-negation program. -/
def c8prog : List Nat := [opBang, opBang]

/-- Double-bang start state: the value `v` alone on the stack. -/
def c8s0 (v : Option Obj) : VMState :=
  { initialVM c8prog [] [] with
      stack := updFn (fun _ => none) 0 v
      sp := 1 }

/-- C8: a single OpBang maps TRUE to FALSE, FALSE to TRUE, NULL to TRUE and
every other operand to FALSE; consequently OpBang twice restores any
boolean and turns NULL into FALSE. -/
theorem C8_double_bang :
    (∀ (s : VMState) (b : Bool),
      readStack s (s.sp - 1) = .ok (some (.boolObj b)) →
      executeBangOperator s =
        push { s with sp := s.sp - 1 } (some (.boolObj (!b)))) ∧
    (∀ (s : VMState),
      readStack s (s.sp - 1) = .ok (some .nullObj) →
      executeBangOperator s =
        push { s with sp := s.sp - 1 } (some (.boolObj true))) ∧
    (∀ (s : VMState) (v : Option Obj),
      readStack s (s.sp - 1) = .ok v →
      (∀ b, v ≠ some (.boolObj b)) → v ≠ some .nullObj →
      executeBangOperator s =
        push { s with sp := s.sp - 1 } (some (.boolObj false))) ∧
    (∀ b : Bool, ∃ t, stepIter 2 (c8s0 (some (.boolObj b))) = .running t ∧
      t.sp = 1 ∧ readStack t (t.sp - 1) = .ok (some (.boolObj b))) ∧
    (∃ t, stepIter 2 (c8s0 (some .nullObj)) = .running t ∧
      t.sp = 1 ∧ readStack t (t.sp - 1) = .ok (some (.boolObj false))) := by
  refine ⟨?_, ?_, ?_, ?_, ?_⟩
  · intro s b h
    unfold executeBangOperator pop
    rw [h]
    simp only [Res.bind_ok]
    cases b <;> rfl
  · intro s h
    unfold executeBangOperator pop
    rw [h]
    rfl
  · intro s v h hb hn
    unfold executeBangOperator pop
    rw [h]
    simp only [Res.bind_ok]
    match v, hb, hn with
    | none, hb, hn => rfl
    | some (.intObj a), hb, hn => rfl
    | some (.boolObj a), hb, hn => exact absurd rfl (hb a)
    | some .nullObj, hb, hn => exact absurd rfl hn
    | some (.strObj a), hb, hn => rfl
    | some (.arrayObj a), hb, hn => rfl
    | some (.hashObj a), hb, hn => rfl
    | some (.compiledFnObj a), hb, hn => rfl
    | some (.closureObj a), hb, hn => rfl
    | some (.builtinObj a), hb, hn => rfl
  · intro b
    cases b
    · exact ⟨_, rfl, rfl, rfl⟩
    · exact ⟨_, rfl, rfl, rfl⟩
  · exact ⟨_, rfl, rfl, rfl⟩

/-- Witness for C8 at concrete input: OpBang on a stack whose top is TRUE
pushes FALSE. -/
theorem C8_double_bang_witness :
    executeBangOperator (c8s0 (some (.boolObj true))) =
      push { c8s0 (some (.boolObj true)) with
               sp := (c8s0 (some (.boolObj true))).sp - 1 }
        (some (.boolObj false)) ∧
    executeBangOperator (c8s0 (some .nullObj)) =
      push { c8s0 (some .nullObj) with
               sp := (c8s0 (some .nullObj)).sp - 1 }
        (some (.boolObj true)) := by
  constructor
  · exact C8_double_bang.1 (c8s0 (some (.boolObj true))) true rfl
  · exact C8_double_bang.2.1 (c8s0 (some .nullObj)) rfl


/-- Popping from an empty stack reads slot −1: a Go panic, never an error. -/
theorem pop_crash_of_sp0 {s : VMState} (h : s.sp = 0) : pop s = .crash := by
  unfold pop readStack
  rw [h]
  rw [if_neg (show ¬ ((0 : Int) ≤ 0 - 1 ∧ (0 : Int) - 1 < (StackSize : Int))
    from fun hc => absurd hc.1 (by norm_num))]
  rfl

theorem readByte_cases (instr : List Nat) (pos : Int) :
    (∃ b, readByte instr pos = .ok b) ∨ readByte instr pos = .crash := by
  unfold readByte
  split
  · exact Or.inl ⟨_, rfl⟩
  · exact Or.inr rfl

theorem readU16_cases (instr : List Nat) (pos : Int) :
    (∃ n, readU16 instr pos = .ok n) ∨ readU16 instr pos = .crash := by
  unfold readU16
  rcases readByte_cases instr pos with ⟨b, hb⟩ | hb
  · rw [hb]
    simp only [Res.bind_ok]
    rcases readByte_cases instr (pos + 1) with ⟨c, hc⟩ | hc
    · rw [hc]
      exact Or.inl ⟨_, rfl⟩
    · rw [hc]
      exact Or.inr rfl
  · rw [hb]
    exact Or.inr rfl

/-- A fetched opcode decomposes into a successful byte read, its decoding,
and the loop condition. -/
theorem fetched_decomp {s : VMState} {fr : Frame} {op : Op}
    (hcf : currentFrame s = .ok fr) (hop : fetchedOp s = some op) :
    ∃ b, readByte fr.fn.instructions (fr.ip + 1) = .ok b ∧ decode b = some op ∧
      fr.ip < ((fr.fn.instructions.length : Nat) : Int) - 1 := by
  cases hrb : readByte fr.fn.instructions (fr.ip + 1) with
  | ok b =>
    have hd : decode b = some op := by
      rw [← fetchedOp_eq hcf hrb, hop]
    refine ⟨b, rfl, hd, ?_⟩
    unfold readByte at hrb
    split at hrb
    · next hc => omega
    · cases hrb
  | err m =>
    have hnone : fetchedOp s = none := by
      unfold fetchedOp
      rw [hcf]
      show (match readByte fr.fn.instructions (fr.ip + 1) with
        | .ok b => decode b | _ => none) = none
      rw [hrb]
    rw [hop] at hnone
    exact Option.noConfusion hnone
  | crash =>
    have hnone : fetchedOp s = none := by
      unfold fetchedOp
      rw [hcf]
      show (match readByte fr.fn.instructions (fr.ip + 1) with
        | .ok b => decode b | _ => none) = none
      rw [hrb]
    rw [hop] at hnone
    exact Option.noConfusion hnone

/-- C9: `pop` has no underflow check, so every popping opcode — OpPop, the
binary arithmetic and comparison operators, the prefix operators, OpIndex,
OpJumpNotTruthy, OpSetGlobal, OpSetLocal and OpReturnValue — executed at a
boundary with `sp = 0` reads stack index −1: a Go runtime panic (crash),
not a VM error. -/
theorem C9_pop_underflow :
    ∀ (s : VMState) (fr : Frame) (op : Op),
      currentFrame s = .ok fr →
      fetchedOp s = some op →
      op ∈ [Op.pop, Op.add, Op.sub, Op.mul, Op.div, Op.eq, Op.neq, Op.gt,
            Op.minus, Op.bang, Op.index, Op.jumpNotTruthy, Op.setGlobal,
            Op.setLocal, Op.returnValue] →
      s.sp = 0 →
      step s = .crashed := by
  intro s fr op hcf hop hmem hsp
  obtain ⟨b, hrb, hdec, hcond⟩ := fetched_decomp hcf hop
  have hcf2 : currentFrame (setCurrentFrame s { fr with ip := fr.ip + 1 }) =
      .ok { fr with ip := fr.ip + 1 } := currentFrame_setCurrentFrame _ hcf
  have hpop2 : pop (setCurrentFrame s { fr with ip := fr.ip + 1 }) = .crash :=
    pop_crash_of_sp0 (show s.sp = 0 from hsp)
  have hex : execOp (setCurrentFrame s { fr with ip := fr.ip + 1 })
      fr.fn.instructions (fr.ip + 1) op = .crash := by
    fin_cases hmem
    · show (pop (setCurrentFrame s { fr with ip := fr.ip + 1 })).bind
        (fun p => Res.ok p.2) = .crash
      rw [hpop2]
      rfl
    · show executeBinaryOperation _ opAdd = .crash
      unfold executeBinaryOperation
      rw [hpop2]
      rfl
    · show executeBinaryOperation _ opSub = .crash
      unfold executeBinaryOperation
      rw [hpop2]
      rfl
    · show executeBinaryOperation _ opMul = .crash
      unfold executeBinaryOperation
      rw [hpop2]
      rfl
    · show executeBinaryOperation _ opDiv = .crash
      unfold executeBinaryOperation
      rw [hpop2]
      rfl
    · show executeComparison _ opEqual = .crash
      unfold executeComparison
      rw [hpop2]
      rfl
    · show executeComparison _ opNotEqual = .crash
      unfold executeComparison
      rw [hpop2]
      rfl
    · show executeComparison _ opGreaterThan = .crash
      unfold executeComparison
      rw [hpop2]
      rfl
    · show executeMinusOperator _ = .crash
      unfold executeMinusOperator
      rw [hpop2]
      rfl
    · show executeBangOperator _ = .crash
      unfold executeBangOperator
      rw [hpop2]
      rfl
    · show (pop (setCurrentFrame s { fr with ip := fr.ip + 1 })).bind
        (fun pIdx => (pop pIdx.2).bind fun pLeft =>
          executeIndexExpression pLeft.2 pLeft.1 pIdx.1) = .crash
      rw [hpop2]
      rfl
    · show (readU16 fr.fn.instructions (fr.ip + 1 + 1)).bind _ = .crash
      rcases readU16_cases fr.fn.instructions (fr.ip + 1 + 1) with ⟨n, hn⟩ | hn
      · rw [hn]
        simp only [Res.bind_ok]
        rw [show advanceIp (setCurrentFrame s { fr with ip := fr.ip + 1 }) 2 =
            Res.ok (setCurrentFrame (setCurrentFrame s
              { fr with ip := fr.ip + 1 })
              ⟨fr.fn, fr.ip + 1 + 2, fr.basePointer⟩) from by
          unfold advanceIp
          rw [hcf2]
          rfl]
        simp only [Res.bind_ok]
        have hpop3 : pop (setCurrentFrame (setCurrentFrame s
            { fr with ip := fr.ip + 1 })
            ⟨fr.fn, fr.ip + 1 + 2, fr.basePointer⟩) = .crash :=
          pop_crash_of_sp0 (show s.sp = 0 from hsp)
        rw [hpop3]
        rfl
      · rw [hn]
        rfl
    · show (readU16 fr.fn.instructions (fr.ip + 1 + 1)).bind _ = .crash
      rcases readU16_cases fr.fn.instructions (fr.ip + 1 + 1) with ⟨n, hn⟩ | hn
      · rw [hn]
        simp only [Res.bind_ok]
        rw [show advanceIp (setCurrentFrame s { fr with ip := fr.ip + 1 }) 2 =
            Res.ok (setCurrentFrame (setCurrentFrame s
              { fr with ip := fr.ip + 1 })
              ⟨fr.fn, fr.ip + 1 + 2, fr.basePointer⟩) from by
          unfold advanceIp
          rw [hcf2]
          rfl]
        simp only [Res.bind_ok]
        have hpop3 : pop (setCurrentFrame (setCurrentFrame s
            { fr with ip := fr.ip + 1 })
            ⟨fr.fn, fr.ip + 1 + 2, fr.basePointer⟩) = .crash :=
          pop_crash_of_sp0 (show s.sp = 0 from hsp)
        rw [hpop3]
        rfl
      · rw [hn]
        rfl
    · show (readByte fr.fn.instructions (fr.ip + 1 + 1)).bind _ = .crash
      rcases readByte_cases fr.fn.instructions (fr.ip + 1 + 1) with ⟨n, hn⟩ | hn
      · rw [hn]
        simp only [Res.bind_ok]
        rw [show advanceIp (setCurrentFrame s { fr with ip := fr.ip + 1 }) 1 =
            Res.ok (setCurrentFrame (setCurrentFrame s
              { fr with ip := fr.ip + 1 })
              ⟨fr.fn, fr.ip + 1 + 1, fr.basePointer⟩) from by
          unfold advanceIp
          rw [hcf2]
          rfl]
        simp only [Res.bind_ok]
        rw [currentFrame_setCurrentFrame ⟨fr.fn, fr.ip + 1 + 1, fr.basePointer⟩
          hcf2]
        simp only [Res.bind_ok]
        have hpop3 : pop (setCurrentFrame (setCurrentFrame s
            { fr with ip := fr.ip + 1 })
            ⟨fr.fn, fr.ip + 1 + 1, fr.basePointer⟩) = .crash :=
          pop_crash_of_sp0 (show s.sp = 0 from hsp)
        rw [hpop3]
        rfl
      · rw [hn]
        rfl
    · show (pop (setCurrentFrame s { fr with ip := fr.ip + 1 })).bind
        (fun p => (popFrame p.2).bind fun fp =>
          push { fp.2 with sp := fp.1.basePointer - 1 } p.1) = .crash
      rw [hpop2]
      rfl
  rw [step_eq_of_exec hcf hcond hrb hdec hex]
  rfl

/-- Witness for C9 at concrete input: OpPop as the first instruction of a
program, with the stack still empty, crashes the VM. -/
theorem C9_pop_underflow_witness :
    step (initialVM [opPop] [] []) = .crashed :=
  C9_pop_underflow (initialVM [opPop] [] []) ⟨⟨[opPop], 0, 0⟩, -1, 0⟩ Op.pop
    rfl rfl (by decide) rfl


theorem readConstant_crash_of_big {s : VMState} {n : Nat}
    (h : s.constants.length ≤ n) : readConstant s n = .crash := by
  unfold readConstant
  rw [List.get?_eq_none.mpr h]

/-- C10: operand indices into the read-only tables are trusted and never
bounds-checked: `vm.constants[idx]` with an out-of-range index is a Go
panic, and so a fetched OpConstant or OpClosure whose 16-bit operand is at
least the length of the constant pool, or a fetched OpGetBuiltin whose
operand is at least the length of the built-ins table, crashes the VM
rather than producing any of the spec's error kinds. -/
theorem C10_trusted_operands :
    (∀ (s : VMState) (n : Nat), s.constants.length ≤ n →
      readConstant s n = .crash) ∧
    (∀ (s : VMState) (fr : Frame) (n : Nat),
      currentFrame s = .ok fr →
      fetchedOp s = some Op.const →
      readU16 fr.fn.instructions (fr.ip + 1 + 1) = .ok n →
      s.constants.length ≤ n →
      step s = .crashed) ∧
    (∀ (s : VMState) (fr : Frame) (n : Nat),
      currentFrame s = .ok fr →
      fetchedOp s = some Op.closure →
      readU16 fr.fn.instructions (fr.ip + 1 + 1) = .ok n →
      s.constants.length ≤ n →
      step s = .crashed) ∧
    (∀ (s : VMState) (fr : Frame) (n : Nat),
      currentFrame s = .ok fr →
      fetchedOp s = some Op.getBuiltIn →
      readByte fr.fn.instructions (fr.ip + 1 + 1) = .ok n →
      s.builtins.length ≤ n →
      step s = .crashed) := by
  refine ⟨fun s n h => readConstant_crash_of_big h, ?_, ?_, ?_⟩
  · intro s fr n hcf hop hu16 hlen
    obtain ⟨b, hrb, hdec, hcond⟩ := fetched_decomp hcf hop
    have hcf2 : currentFrame (setCurrentFrame s { fr with ip := fr.ip + 1 }) =
        .ok { fr with ip := fr.ip + 1 } := currentFrame_setCurrentFrame _ hcf
    have hex : execOp (setCurrentFrame s { fr with ip := fr.ip + 1 })
        fr.fn.instructions (fr.ip + 1) Op.const = .crash := by
      show (readU16 fr.fn.instructions (fr.ip + 1 + 1)).bind _ = .crash
      rw [hu16]
      simp only [Res.bind_ok]
      rw [show advanceIp (setCurrentFrame s { fr with ip := fr.ip + 1 }) 2 =
          Res.ok (setCurrentFrame (setCurrentFrame s
            { fr with ip := fr.ip + 1 })
            ⟨fr.fn, fr.ip + 1 + 2, fr.basePointer⟩) from by
        unfold advanceIp
        rw [hcf2]
        rfl]
      simp only [Res.bind_ok]
      have hrc : readConstant (setCurrentFrame (setCurrentFrame s
          { fr with ip := fr.ip + 1 })
          ⟨fr.fn, fr.ip + 1 + 2, fr.basePointer⟩) n = .crash :=
        readConstant_crash_of_big (show s.constants.length ≤ n from hlen)
      rw [hrc]
      rfl
    rw [step_eq_of_exec hcf hcond hrb hdec hex]
    rfl
  · intro s fr n hcf hop hu16 hlen
    obtain ⟨b, hrb, hdec, hcond⟩ := fetched_decomp hcf hop
    have hcf2 : currentFrame (setCurrentFrame s { fr with ip := fr.ip + 1 }) =
        .ok { fr with ip := fr.ip + 1 } := currentFrame_setCurrentFrame _ hcf
    have hex : execOp (setCurrentFrame s { fr with ip := fr.ip + 1 })
        fr.fn.instructions (fr.ip + 1) Op.closure = .crash := by
      show (readU16 fr.fn.instructions (fr.ip + 1 + 1)).bind _ = .crash
      rw [hu16]
      simp only [Res.bind_ok]
      rw [show advanceIp (setCurrentFrame s { fr with ip := fr.ip + 1 }) 3 =
          Res.ok (setCurrentFrame (setCurrentFrame s
            { fr with ip := fr.ip + 1 })
            ⟨fr.fn, fr.ip + 1 + 3, fr.basePointer⟩) from by
        unfold advanceIp
        rw [hcf2]
        rfl]
      simp only [Res.bind_ok]
      unfold pushClosure
      have hrc : readConstant (setCurrentFrame (setCurrentFrame s
          { fr with ip := fr.ip + 1 })
          ⟨fr.fn, fr.ip + 1 + 3, fr.basePointer⟩) n = .crash :=
        readConstant_crash_of_big (show s.constants.length ≤ n from hlen)
      rw [hrc]
      rfl
    rw [step_eq_of_exec hcf hcond hrb hdec hex]
    rfl
  · intro s fr n hcf hop hrbn hlen
    obtain ⟨b, hrb, hdec, hcond⟩ := fetched_decomp hcf hop
    have hcf2 : currentFrame (setCurrentFrame s { fr with ip := fr.ip + 1 }) =
        .ok { fr with ip := fr.ip + 1 } := currentFrame_setCurrentFrame _ hcf
    have hex : execOp (setCurrentFrame s { fr with ip := fr.ip + 1 })
        fr.fn.instructions (fr.ip + 1) Op.getBuiltIn = .crash := by
      show (readByte fr.fn.instructions (fr.ip + 1 + 1)).bind _ = .crash
      rw [hrbn]
      simp only [Res.bind_ok]
      rw [show advanceIp (setCurrentFrame s { fr with ip := fr.ip + 1 }) 1 =
          Res.ok (setCurrentFrame (setCurrentFrame s
            { fr with ip := fr.ip + 1 })
            ⟨fr.fn, fr.ip + 1 + 1, fr.basePointer⟩) from by
        unfold advanceIp
        rw [hcf2]
        rfl]
      simp only [Res.bind_ok]
      rw [if_neg (show ¬ (n < (setCurrentFrame (setCurrentFrame s
          { fr with ip := fr.ip + 1 })
          ⟨fr.fn, fr.ip + 1 + 1, fr.basePointer⟩).builtins.length) from by
        show ¬ (n < s.builtins.length)
        omega)]
    rw [step_eq_of_exec hcf hcond hrb hdec hex]
    rfl

/-- Witness for C10 at concrete inputs: OpConstant 0, OpClosure 0 and
OpGetBuiltin 0 each crash when the constant pool, respectively the
built-ins table, is empty. -/
theorem C10_trusted_operands_witness :
    readConstant (initialVM [] [] []) 0 = .crash ∧
    step (initialVM [opConstant, 0, 0] [] []) = .crashed ∧
    step (initialVM [opClosure, 0, 0, 0] [] []) = .crashed ∧
    step (initialVM [opGetBuiltIn, 0] [] []) = .crashed := by
  refine ⟨?_, ?_, ?_, ?_⟩
  · exact C10_trusted_operands.1 (initialVM [] [] []) 0 (by decide)
  · exact C10_trusted_operands.2.1 (initialVM [opConstant, 0, 0] [] [])
      ⟨⟨[opConstant, 0, 0], 0, 0⟩, -1, 0⟩ 0 rfl rfl rfl (by decide)
  · exact C10_trusted_operands.2.2.1 (initialVM [opClosure, 0, 0, 0] [] [])
      ⟨⟨[opClosure, 0, 0, 0], 0, 0⟩, -1, 0⟩ 0 rfl rfl rfl (by decide)
  · exact C10_trusted_operands.2.2.2 (initialVM [opGetBuiltIn, 0] [] [])
      ⟨⟨[opGetBuiltIn, 0], 0, 0⟩, -1, 0⟩ 0 rfl rfl rfl (by decide)

end MonkeyVM
